import Mathlib

/-!
Verification of the extraction-and-aggregation pipeline of
process_health_data.py (Apple Health export → daily CSV table).

Shallow embedding conventions:
* Timestamps are integer seconds (the source parses dates with second
  granularity via '%Y-%m-%d %H:%M:%S'); a timestamp that failed to parse is
  modelled as Option.none, mirroring parse_date returning None.
* Calendar dates are integer day numbers: datetime.date() becomes floor
  division of the timestamp by 86400.
* Floating point numbers are modelled as exact rationals; Python round(x, n)
  becomes round-half-to-even at n decimal places on ℚ.
* Python exceptions escaping a function are modelled with Except: float(...)
  raising on a malformed value makes the whole extractor return .error,
  exactly as the uncaught exception aborts the processing run in main.
-/

/-- Round-half-to-even of a rational to the nearest integer, the behaviour of
Python round on an exact decimal argument. -/
def rhe (q : ℚ) : ℤ :=
  let f : ℤ := ⌊q⌋
  if q - f < 1/2 then f
  else if 1/2 < q - f then f + 1
  else if f % 2 = 0 then f else f + 1

/-- Python round(x, n): round-half-to-even at n decimal places. -/
def roundTo (n : ℕ) (q : ℚ) : ℚ := (rhe (q * 10 ^ n) : ℚ) / 10 ^ n

/-- Accumulate a run of decimal digit characters into a number; none if a
non-digit occurs. -/
def digitsVal (l : List Char) : Option ℕ :=
  l.foldlM (fun acc c => if c.isDigit then some (acc * 10 + (c.toNat - 48)) else none) 0

/-- Parse a plain decimal literal (optional sign, integer digits, optional
fractional digits), the shape Python float() accepts for the numeric value
attributes in a health export; none models float() raising ValueError. -/
def parseDecimal (s : String) : Option ℚ :=
  let cs := s.data
  let signAndRest : ℚ × List Char :=
    match cs with
    | '-' :: rest => (-1, rest)
    | '+' :: rest => (1, rest)
    | _ => (1, cs)
  let sign := signAndRest.1
  let body := signAndRest.2
  let intPart := body.takeWhile (fun c => c ≠ '.')
  let rest := body.dropWhile (fun c => c ≠ '.')
  match rest with
  | [] =>
    if intPart.isEmpty then none
    else (digitsVal intPart).map (fun n => sign * (n : ℚ))
  | _ :: fracPart =>
    if intPart.isEmpty ∧ fracPart.isEmpty then none
    else
      match digitsVal intPart, digitsVal fracPart with
      | some i, some f =>
        some (sign * ((i : ℚ) + (f : ℚ) / 10 ^ fracPart.length))
      | _, _ => none

/-- Python float(x) on record.get('value'): a missing attribute raises
TypeError, a non-numeric string raises ValueError. -/
def pyFloat : Option String → Except String ℚ
  | none => .error "TypeError: float() argument is None"
  | some s =>
    match parseDecimal s with
    | some q => .ok q
    | none => .error ("ValueError: could not convert string to float: " ++ s)

/-- Timestamps in integer seconds. -/
abbrev Timestamp := Int

/-- datetime.date(): the calendar day number containing the timestamp. -/
def dateOf (t : Timestamp) : Int := t.fdiv 86400

/-- strftime('%H:%M') of a timestamp: hour and minute of the day. -/
def formatHM (t : Timestamp) : Int × Int :=
  ((t.emod 86400).fdiv 3600, ((t.emod 86400).emod 3600).fdiv 60)

/-- One Record element of the parsed export.xml, after the excluded parsing
layer has run parse_date on the date attributes (none = parse failure). -/
structure RawRecord where
  type : String
  startDate : Option Timestamp
  endDate : Option Timestamp
  value : Option String
  unit : Option String
  sourceName : Option String
deriving DecidableEq

/-- Outcome of one loop iteration of an extractor: the record is silently
skipped (continue), the iteration raises (uncaught exception), or it appends
one typed element to the result list. -/
inductive ExtractStep (α : Type) where
  | skip : ExtractStep α
  | fail : String → ExtractStep α
  | keep : α → ExtractStep α

/-- Run a per-record extraction loop over the record list, stopping at the
first raised exception, as the Python for-loops in process_*_data do. -/
def runExtract {α : Type} (f : RawRecord → ExtractStep α) :
    List RawRecord → Except String (List α)
  | [] => .ok []
  | r :: rs =>
    match f r with
    | .skip => runExtract f rs
    | .fail m => .error m
    | .keep a => (runExtract f rs).map (fun l => a :: l)

/-- A sleep-analysis record converted by process_sleep_data. The source also
stores start/end formatted as '%Y-%m-%d %H:%M:%S' strings and re-parses them
in the aggregator with the same format; at second granularity that round
trip is the identity, so the timestamps are stored directly. -/
structure SleepSession where
  date : Int
  start_time : Timestamp
  end_time : Timestamp
  duration_minutes : ℚ
  duration_hours : ℚ
  type : String
  source : String
deriving DecidableEq

/-- The sleep-stage category label shared by the sleep records. -/
def sleepLabel : String := "HKCategoryValueSleepAnalysis"

/-- Remove every occurrence of pat from the character list, scanning left to
right, with explicit fuel (one unit per examined character suffices when the
pattern is nonempty): Python str.replace(pat, ''). -/
def stripAllAux (pat : List Char) : ℕ → List Char → List Char
  | _, [] => []
  | 0, l => l
  | fuel + 1, c :: cs =>
    if (c :: cs).take pat.length = pat then
      stripAllAux pat fuel ((c :: cs).drop pat.length)
    else c :: stripAllAux pat fuel cs

/-- value.replace('HKCategoryValueSleepAnalysis', '') from the source. -/
def stripStageLabel (v : String) : String :=
  ⟨stripAllAux sleepLabel.data v.data.length v.data⟩

/-- One iteration of the process_sleep_data loop (source lines 52-76): keep
only SleepAnalysis records whose dates parsed and whose start is within the
lookback window, then build the session dictionary. -/
def extractSleep (now : Timestamp) (daysBack : Int) (r : RawRecord) :
    ExtractStep SleepSession :=
  if r.type = "HKCategoryTypeIdentifierSleepAnalysis" then
    match r.startDate, r.endDate with
    | some s, some e =>
      if s < now - daysBack * 86400 then .skip
      else
        match r.value with
        | none => .fail "AttributeError: NoneType has no attribute replace"
        | some v =>
          let durationMinutes : ℚ := ((e - s : ℤ) : ℚ) / 60
          .keep
            { date := dateOf s
              start_time := s
              end_time := e
              duration_minutes := roundTo 2 durationMinutes
              duration_hours := roundTo 2 (durationMinutes / 60)
              type := stripStageLabel v
              source := r.sourceName.getD "Unknown" }
    | _, _ => .skip
  else .skip

/-- process_sleep_data: cutoff = now - timedelta(days=days_back); one pass
over the records. -/
def processSleepData (now : Timestamp) (daysBack : Int)
    (records : List RawRecord) : Except String (List SleepSession) :=
  runExtract (extractSleep now daysBack) records

/-- A heart-rate measurement built by process_heart_rate_data. -/
structure HeartRateRec where
  datetime : Timestamp
  date : Int
  heart_rate : ℚ
  unit : Option String
  source : String
deriving DecidableEq

/-- One iteration of the process_heart_rate_data loop (source lines 89-105):
the window test precedes float(record.get('value')), which raises on a
missing or non-numeric value. -/
def extractHeartRate (now : Timestamp) (daysBack : Int) (r : RawRecord) :
    ExtractStep HeartRateRec :=
  if r.type = "HKQuantityTypeIdentifierHeartRate" then
    match r.startDate with
    | some s =>
      if s < now - daysBack * 86400 then .skip
      else
        match pyFloat r.value with
        | .error m => .fail m
        | .ok q =>
          .keep
            { datetime := s
              date := dateOf s
              heart_rate := roundTo 1 q
              unit := r.unit
              source := r.sourceName.getD "Unknown" }
    | none => .skip
  else .skip

/-- process_heart_rate_data. -/
def processHeartRateData (now : Timestamp) (daysBack : Int)
    (records : List RawRecord) : Except String (List HeartRateRec) :=
  runExtract (extractHeartRate now daysBack) records

/-- A resting-heart-rate measurement built by process_resting_heart_rate. -/
structure RestingRec where
  date : Int
  datetime : Timestamp
  resting_heart_rate : ℚ
  unit : Option String
  source : String
deriving DecidableEq

/-- One iteration of the process_resting_heart_rate loop (lines 118-134). -/
def extractResting (now : Timestamp) (daysBack : Int) (r : RawRecord) :
    ExtractStep RestingRec :=
  if r.type = "HKQuantityTypeIdentifierRestingHeartRate" then
    match r.startDate with
    | some s =>
      if s < now - daysBack * 86400 then .skip
      else
        match pyFloat r.value with
        | .error m => .fail m
        | .ok q =>
          .keep
            { date := dateOf s
              datetime := s
              resting_heart_rate := roundTo 1 q
              unit := r.unit
              source := r.sourceName.getD "Unknown" }
    | none => .skip
  else .skip

/-- process_resting_heart_rate. -/
def processRestingHeartRate (now : Timestamp) (daysBack : Int)
    (records : List RawRecord) : Except String (List RestingRec) :=
  runExtract (extractResting now daysBack) records

/-- A heart-rate-variability measurement built by process_hrv_data. -/
structure HrvRec where
  date : Int
  datetime : Timestamp
  hrv_sdnn : ℚ
  unit : Option String
  source : String
deriving DecidableEq

/-- One iteration of the process_hrv_data loop (lines 147-163). -/
def extractHrv (now : Timestamp) (daysBack : Int) (r : RawRecord) :
    ExtractStep HrvRec :=
  if r.type = "HKQuantityTypeIdentifierHeartRateVariabilitySDNN" then
    match r.startDate with
    | some s =>
      if s < now - daysBack * 86400 then .skip
      else
        match pyFloat r.value with
        | .error m => .fail m
        | .ok q =>
          .keep
            { date := dateOf s
              datetime := s
              hrv_sdnn := roundTo 1 q
              unit := r.unit
              source := r.sourceName.getD "Unknown" }
    | none => .skip
  else .skip

/-- process_hrv_data. -/
def processHrvData (now : Timestamp) (daysBack : Int)
    (records : List RawRecord) : Except String (List HrvRec) :=
  runExtract (extractHrv now daysBack) records

/-- Per-date accumulator of aggregate_daily_sleep (the defaultdict template
at source lines 224-234); the separate 'date' marker field of the template
is represented by key membership in the state below. -/
structure SleepAcc where
  total_in_bed_minutes : ℚ := 0
  total_asleep_minutes : ℚ := 0
  total_awake_minutes : ℚ := 0
  core_sleep_minutes : ℚ := 0
  deep_sleep_minutes : ℚ := 0
  rem_sleep_minutes : ℚ := 0
  bedtime : Option Timestamp := none
  wake_time : Option Timestamp := none
deriving DecidableEq

/-- The daily_sleep defaultdict: its key set in insertion order plus the
per-key accumulators (absent keys map to the defaultdict template). -/
structure SleepState where
  keys : List Int
  tbl : Int → SleepAcc

/-- The body of the per-session loop of aggregate_daily_sleep (lines
236-267): track earliest bedtime / latest wake time, then add the duration
to the bucket selected by the if/elif chain on the session type. -/
def sleepAccAdd (a : SleepAcc) (s : SleepSession) : SleepAcc :=
  let a1 : SleepAcc :=
    { a with
      bedtime := some (match a.bedtime with
        | none => s.start_time
        | some b => if s.start_time < b then s.start_time else b)
      wake_time := some (match a.wake_time with
        | none => s.end_time
        | some w => if w < s.end_time then s.end_time else w) }
  if s.type = "InBed" then
    { a1 with total_in_bed_minutes := a1.total_in_bed_minutes + s.duration_minutes }
  else if s.type = "Asleep" ∨ s.type = "AsleepUnspecified" then
    { a1 with total_asleep_minutes := a1.total_asleep_minutes + s.duration_minutes }
  else if s.type = "Awake" then
    { a1 with total_awake_minutes := a1.total_awake_minutes + s.duration_minutes }
  else if s.type = "Core" ∨ s.type = "AsleepCore" then
    { a1 with core_sleep_minutes := a1.core_sleep_minutes + s.duration_minutes }
  else if s.type = "Deep" ∨ s.type = "AsleepDeep" then
    { a1 with deep_sleep_minutes := a1.deep_sleep_minutes + s.duration_minutes }
  else if s.type = "REM" ∨ s.type = "AsleepREM" then
    { a1 with rem_sleep_minutes := a1.rem_sleep_minutes + s.duration_minutes }
  else a1

/-- One session processed against the dict state (the session date keys the
accumulator; daily_sleep[date] creates the entry on first access). -/
def addSession (st : SleepState) (s : SleepSession) : SleepState :=
  { keys := if s.date ∈ st.keys then st.keys else st.keys ++ [s.date]
    tbl := fun d => if d = s.date then sleepAccAdd (st.tbl d) s else st.tbl d }

/-- One nightly summary row as formatted at source lines 271-285. -/
structure DailySleep where
  date : Int
  bedtime : Option (Int × Int)
  wake_time : Option (Int × Int)
  time_in_bed_hours : ℚ
  total_sleep_hours : ℚ
  awake_minutes : ℚ
  core_sleep_hours : ℚ
  deep_sleep_hours : ℚ
  rem_sleep_hours : ℚ
deriving DecidableEq

/-- Formatting step of aggregate_daily_sleep for one date. -/
def finalizeSleep (d : Int) (a : SleepAcc) : DailySleep :=
  { date := d
    bedtime := a.bedtime.map formatHM
    wake_time := a.wake_time.map formatHM
    time_in_bed_hours := roundTo 2 (a.total_in_bed_minutes / 60)
    total_sleep_hours := roundTo 2 ((a.total_asleep_minutes + a.core_sleep_minutes +
      a.deep_sleep_minutes + a.rem_sleep_minutes) / 60)
    awake_minutes := roundTo 1 a.total_awake_minutes
    core_sleep_hours := roundTo 2 (a.core_sleep_minutes / 60)
    deep_sleep_hours := roundTo 2 (a.deep_sleep_minutes / 60)
    rem_sleep_hours := roundTo 2 (a.rem_sleep_minutes / 60) }

/-- aggregate_daily_sleep: fold the sessions into the date-keyed dict, format
each entry, and return the rows sorted by date (the keys are distinct, so
sorting the formatted values by date equals mapping over the sorted keys). -/
def aggregateDailySleep (sessions : List SleepSession) : List DailySleep :=
  let st := sessions.foldl addSession ⟨[], fun _ => {}⟩
  (st.keys.insertionSort (fun x y => x ≤ y)).map (fun d => finalizeSleep d (st.tbl d))

/-- Per-date accumulator of aggregate_daily_heart_data (defaultdict template
at lines 173-181, plus the transient hr_values list). -/
structure HeartAcc where
  hr_values : List ℚ := []
  hr_avg : Option ℚ := none
  hr_min : Option ℚ := none
  hr_max : Option ℚ := none
  hr_count : ℕ := 0
  resting_hr : Option ℚ := none
  hrv : Option ℚ := none
deriving DecidableEq

/-- The daily_data defaultdict of aggregate_daily_heart_data. -/
structure HeartState where
  keys : List Int
  tbl : Int → HeartAcc

/-- Heart-rate loop body (lines 184-190): append the measurement value to
the hr_values list of its date. -/
def addHeartRate (st : HeartState) (m : HeartRateRec) : HeartState :=
  { keys := if m.date ∈ st.keys then st.keys else st.keys ++ [m.date]
    tbl := fun d => if d = m.date then
        { st.tbl d with hr_values := (st.tbl d).hr_values ++ [m.heart_rate] }
      else st.tbl d }

/-- Sum of a list of rationals (Python sum()). -/
def qsum (l : List ℚ) : ℚ := l.foldl (fun a x => a + x) 0

/-- Minimum of a list of rationals (Python min() on a nonempty list). -/
def qmin : List ℚ → Option ℚ
  | [] => none
  | x :: xs => some (xs.foldl (fun a y => if y < a then y else a) x)

/-- Maximum of a list of rationals (Python max() on a nonempty list). -/
def qmax : List ℚ → Option ℚ
  | [] => none
  | x :: xs => some (xs.foldl (fun a y => if a < y then y else a) x)

/-- Stats step of aggregate_daily_heart_data (lines 193-200) for one entry:
when hr_values is nonempty, fill avg/min/max/count and drop the list. -/
def statsApply (a : HeartAcc) : HeartAcc :=
  if a.hr_values = [] then a
  else
    { a with
      hr_avg := some (roundTo 1 (qsum a.hr_values / (a.hr_values.length : ℚ)))
      hr_min := (qmin a.hr_values).map (fun x => roundTo 1 x)
      hr_max := (qmax a.hr_values).map (fun x => roundTo 1 x)
      hr_count := a.hr_values.length
      hr_values := [] }

/-- The 'Calculate stats' loop runs over the current keys of the dict. -/
def statsPass (st : HeartState) : HeartState :=
  { st with tbl := fun d => if d ∈ st.keys then statsApply (st.tbl d) else st.tbl d }

/-- Resting-heart-rate loop body (lines 203-207): unconditional assignment,
so the last record of a date in input order wins. -/
def addResting (st : HeartState) (m : RestingRec) : HeartState :=
  { keys := if m.date ∈ st.keys then st.keys else st.keys ++ [m.date]
    tbl := fun d => if d = m.date then
        { st.tbl d with resting_hr := some m.resting_heart_rate }
      else st.tbl d }

/-- HRV loop body (lines 210-214): unconditional assignment, last wins. -/
def addHrv (st : HeartState) (m : HrvRec) : HeartState :=
  { keys := if m.date ∈ st.keys then st.keys else st.keys ++ [m.date]
    tbl := fun d => if d = m.date then
        { st.tbl d with hrv := some m.hrv_sdnn }
      else st.tbl d }

/-- One daily cardiac summary row. -/
structure DailyHeart where
  date : Int
  hr_avg : Option ℚ
  hr_min : Option ℚ
  hr_max : Option ℚ
  hr_count : ℕ
  resting_hr : Option ℚ
  hrv : Option ℚ
deriving DecidableEq

/-- Read one finished accumulator into a summary row. -/
def finalizeHeart (d : Int) (a : HeartAcc) : DailyHeart :=
  { date := d
    hr_avg := a.hr_avg
    hr_min := a.hr_min
    hr_max := a.hr_max
    hr_count := a.hr_count
    resting_hr := a.resting_hr
    hrv := a.hrv }

/-- aggregate_daily_heart_data: the heart-rate fold, the stats pass, the
resting-heart-rate fold, the HRV fold, then the rows sorted by date (every
entry has its date set, so the None fallback of the sort key is dead). -/
def aggregateDailyHeartData (heartRates : List HeartRateRec)
    (restingHrs : List RestingRec) (hrvs : List HrvRec) : List DailyHeart :=
  let st1 := heartRates.foldl addHeartRate ⟨[], fun _ => {}⟩
  let st2 := statsPass st1
  let st3 := restingHrs.foldl addResting st2
  let st4 := hrvs.foldl addHrv st3
  (st4.keys.insertionSort (fun x y => x ≤ y)).map (fun d => finalizeHeart d (st4.tbl d))

/-- Last element of the list satisfying p, as left-to-right dictionary
overwrites produce it ({s['date']: s for s in data} keeps the last record
per key). -/
def lastMatch {α : Type} (p : α → Bool) (l : List α) : Option α :=
  l.foldl (fun acc x => if p x then some x else acc) none

/-- One output row of generate_spreadsheet. The source fills the row dict
with either the eight sleep fields of the matching summary or eight empty
markers, and independently the six cardiac fields or six empty markers; a
side is therefore represented as an optional summary, none meaning all its
fields carry the empty marker. -/
structure CombinedRow where
  date : Int
  sleep : Option DailySleep
  heart : Option DailyHeart
deriving DecidableEq

/-- generate_spreadsheet rows (lines 294-342): union of the date sets of the
two inputs, ascending; each date takes its matching summaries when present. -/
def generateSpreadsheet (sleepData : List DailySleep) (heartData : List DailyHeart) :
    List CombinedRow :=
  let allDates := ((sleepData.map (fun s => s.date) ++
    heartData.map (fun h => h.date)).dedup).insertionSort (fun x y => x ≤ y)
  allDates.map (fun d =>
    { date := d
      sleep := lastMatch (fun s => s.date = d) sleepData
      heart := lastMatch (fun h => h.date = d) heartData })

/-- The core pipeline of main (lines 444-455) from the parsed record list to
the combined rows: the four extractors, the two aggregators, the merge. The
wall clock read by datetime.now() at each extractor call site is modelled by
the single injected reference time now. -/
def runPipeline (now : Timestamp) (daysBack : Int) (records : List RawRecord) :
    Except String (List CombinedRow) := do
  let sleepSessions ← processSleepData now daysBack records
  let heartRates ← processHeartRateData now daysBack records
  let restingHrs ← processRestingHeartRate now daysBack records
  let hrvs ← processHrvData now daysBack records
  let dailySleep := aggregateDailySleep sleepSessions
  let dailyHeart := aggregateDailyHeartData heartRates restingHrs hrvs
  pure (generateSpreadsheet dailySleep dailyHeart)

/-- The element an extractor keeps for a record, if any. -/
def keepOf {α : Type} (f : RawRecord → ExtractStep α) (r : RawRecord) : Option α :=
  match f r with
  | .keep a => some a
  | _ => none

/-- The normalized stage buckets of the aggregator's if/elif chain (source
lines 256-267), with a seventh value for labels matching no branch. -/
inductive Stage where
  | inBed
  | asleep
  | awake
  | core
  | deep
  | rem
  | unknown
deriving DecidableEq

/-- The bucket the aggregator's if/elif chain selects for a session type. -/
def classifyStage (t : String) : Stage :=
  if t = "InBed" then .inBed
  else if t = "Asleep" ∨ t = "AsleepUnspecified" then .asleep
  else if t = "Awake" then .awake
  else if t = "Core" ∨ t = "AsleepCore" then .core
  else if t = "Deep" ∨ t = "AsleepDeep" then .deep
  else if t = "REM" ∨ t = "AsleepREM" then .rem
  else .unknown

/-- Total duration (in the stored per-session minutes) of the sessions of a
list falling in one stage bucket. -/
def stageSumL (l : List SleepSession) (g : Stage) : ℚ :=
  ((l.filter (fun s => classifyStage s.type = g)).map (fun s => s.duration_minutes)).sum

/-- The sessions of a list attributed to one calendar date. -/
def sessionsOn (l : List SleepSession) (d : Int) : List SleepSession :=
  l.filter (fun s => s.date = d)

/-- Per-date per-bucket duration total, reconstructed from the sessions. -/
def stageSum (l : List SleepSession) (d : Int) (g : Stage) : ℚ :=
  stageSumL (sessionsOn l d) g

/-- Running minimum step over an optional current bound. -/
def minT (b : Option Int) (t : Int) : Int :=
  match b with
  | none => t
  | some b0 => min b0 t

/-- Running maximum step over an optional current bound. -/
def maxT (b : Option Int) (t : Int) : Int :=
  match b with
  | none => t
  | some b0 => max b0 t

/-- Running minimum of a list, seeded with an optional bound. -/
def ominFold (b : Option Int) (ts : List Int) : Option Int :=
  ts.foldl (fun acc t => some (minT acc t)) b

/-- Running maximum of a list, seeded with an optional bound. -/
def omaxFold (b : Option Int) (ts : List Int) : Option Int :=
  ts.foldl (fun acc t => some (maxT acc t)) b

/-- A record whose parsed start timestamp lies strictly before the cutoff
now - days_back days; records with an unparseable start are not counted here
(they are dropped by a separate branch of every extractor). -/
def outOfWindow (now : Timestamp) (daysBack : Int) (r : RawRecord) : Bool :=
  match r.startDate with
  | some s => decide (s < now - daysBack * 86400)
  | none => false

/-- An in-window heart-rate record whose value attribute is not numeric. -/
def badHrRec : RawRecord :=
  RawRecord.mk "HKQuantityTypeIdentifierHeartRate" (some 100) (some 100)
    (some "abc") (some "count/min") (some "Watch")

/-- An in-window heart-rate record with a numeric value. -/
def goodHrRec : RawRecord :=
  RawRecord.mk "HKQuantityTypeIdentifierHeartRate" (some 150) (some 150)
    (some "72") (some "count/min") (some "Watch")

/-- A concrete 90-minute Core session (23:00 to 00:30 crossing midnight). -/
def sessCore : SleepSession := SleepSession.mk 0 82800 88200 90 (3/2) "Core" "Watch"

/-- The single summary row aggregated from sessCore. -/
def c4Row : DailySleep :=
  finalizeSleep 0 ((List.foldl addSession ⟨[], fun _ => {}⟩ [sessCore]).tbl 0)

/-- A resting-heart-rate measurement of 55 on day 0, observed first. -/
def rhr55 : RestingRec := RestingRec.mk 0 100 55 (some "count/min") "Watch"

/-- A resting-heart-rate measurement of 58 on day 0, observed last. -/
def rhr58 : RestingRec := RestingRec.mk 0 200 58 (some "count/min") "Watch"

/-- The single daily cardiac row aggregated from the two measurements. -/
def c5Row : DailyHeart :=
  finalizeHeart 0 ((List.foldl addHrv
    (List.foldl addResting
      (statsPass (List.foldl addHeartRate ⟨[], fun _ => {}⟩ ([] : List HeartRateRec)))
      [rhr55, rhr58])
    ([] : List HrvRec)).tbl 0)

/-- A concrete 360-minute Deep session starting 00:30 of day 1 (the second
session of the spec scenario; its start lies on calendar day 1, so the code
attributes it to night 1, not night 0). -/
def sessDeep : SleepSession := SleepSession.mk 1 88200 109800 360 6 "Deep" "Watch"

/-- The nightly summary the code produces for day 0 of the scenario. -/
def rowA : DailySleep :=
  DailySleep.mk 0 (some (23, 0)) (some (0, 30)) 0 (3/2) 0 (3/2) 0 0

/-- The nightly summary the code produces for day 1 of the scenario. -/
def rowB : DailySleep :=
  DailySleep.mk 1 (some (0, 30)) (some (6, 30)) 0 6 0 0 6 0

/-- A raw sleep record for the scenario's first session (23:00 to 00:30). -/
def sleepRecCore : RawRecord :=
  RawRecord.mk "HKCategoryTypeIdentifierSleepAnalysis" (some 82800) (some 88200)
    (some "HKCategoryValueSleepAnalysisCore") none (some "Watch")

/-- The session the sleep extractor builds from sleepRecCore. -/
def c6ExtractedSess : SleepSession :=
  SleepSession.mk (dateOf 82800) 82800 88200
    (roundTo 2 (((88200 - 82800 : ℤ) : ℚ) / 60))
    (roundTo 2 ((((88200 - 82800 : ℤ) : ℚ) / 60) / 60))
    (stripStageLabel "HKCategoryValueSleepAnalysisCore") "Watch"

/-- A session whose label matches no recognized stage bucket (22:00-23:00 of
day 0). -/
def sUnknownStage : SleepSession := SleepSession.mk 0 79200 82800 60 1 "SomethingElse" "Watch"

/-- The nightly row aggregated from the unknown-stage session (22:00-23:00)
together with the Core session (23:00-00:30) of the same night. -/
def c10Row : DailySleep :=
  finalizeSleep 0 ((List.foldl addSession ⟨[], fun _ => {}⟩ [sUnknownStage, sessCore]).tbl 0)

/-- A raw sleep record carrying an unrecognized stage label. -/
def c7Rec : RawRecord :=
  RawRecord.mk "HKCategoryTypeIdentifierSleepAnalysis" (some 0) (some 60)
    (some "HKCategoryValueSleepAnalysisSomethingNew") none (some "Watch")

/-- The session the extractor builds from c7Rec: retained, with the stripped
but unrecognized label. -/
def c7Sess : SleepSession :=
  SleepSession.mk (dateOf 0) 0 60 (roundTo 2 (((60 - 0 : ℤ) : ℚ) / 60))
    (roundTo 2 ((((60 - 0 : ℤ) : ℚ) / 60) / 60))
    (stripStageLabel "HKCategoryValueSleepAnalysisSomethingNew") "Watch"

/-- A raw one-second Awake sleep record. -/
def oneSecAwakeRec : RawRecord :=
  RawRecord.mk "HKCategoryTypeIdentifierSleepAnalysis" (some 0) (some 1)
    (some "HKCategoryValueSleepAnalysisAwake") none (some "Watch")

/-- The session extracted from the one-second record: its duration_minutes
field already carries the 2-decimal rounding of 1/60. -/
def oneSecSession : SleepSession :=
  SleepSession.mk (dateOf 0) 0 1 (roundTo 2 (((1 - 0 : ℤ) : ℚ) / 60))
    (roundTo 2 ((((1 - 0 : ℤ) : ℚ) / 60) / 60))
    (stripStageLabel "HKCategoryValueSleepAnalysisAwake") "Watch"

/-- A cardiac-only daily summary used to exercise the merge. -/
def heartDay3 : DailyHeart := DailyHeart.mk 3 none none none 0 (some 55) none

theorem runExtract_filter {α : Type} (f : RawRecord → ExtractStep α)
    (p : RawRecord → Bool) (h : ∀ r, p r = false → f r = .skip) :
    ∀ l, runExtract f (l.filter p) = runExtract f l := by
  intro l
  induction l with
  | nil => rfl
  | cons r rs ih =>
    by_cases hp : p r
    · cases hfr : f r <;> simp [List.filter_cons, hp, runExtract, hfr, ih]
    · have hskip := h r (by simpa using hp)
      simp [List.filter_cons, hp, runExtract, hskip, ih]

theorem runExtract_error_iff {α : Type} (f : RawRecord → ExtractStep α)
    (l : List RawRecord) :
    (∃ m, runExtract f l = .error m) ↔ ∃ r ∈ l, ∃ m, f r = .fail m := by
  induction l with
  | nil => simp [runExtract]
  | cons r rs ih =>
    cases hfr : f r with
    | skip =>
      simp only [runExtract, hfr]
      rw [ih]
      constructor
      · rintro ⟨x, hx, m, hm⟩; exact ⟨x, List.mem_cons_of_mem _ hx, m, hm⟩
      · rintro ⟨x, hx, m, hm⟩
        rcases List.mem_cons.1 hx with rfl | hx
        · rw [hfr] at hm; cases hm
        · exact ⟨x, hx, m, hm⟩
    | fail m => refine ⟨fun _ => ⟨r, List.mem_cons_self r rs, m, hfr⟩, fun _ => ⟨m, by simp [runExtract, hfr]⟩⟩
    | keep a =>
      simp only [runExtract, hfr]
      have hmap : ∀ m, ((runExtract f rs).map (fun l => a :: l) = .error m) ↔
          runExtract f rs = .error m := by
        intro m; cases runExtract f rs <;> simp [Except.map]
      constructor
      · rintro ⟨m, hm⟩
        rcases ih.1 ⟨m, (hmap m).1 hm⟩ with ⟨x, hx, m', hm'⟩
        exact ⟨x, List.mem_cons_of_mem _ hx, m', hm'⟩
      · rintro ⟨x, hx, m, hm⟩
        rcases List.mem_cons.1 hx with rfl | hx
        · rw [hfr] at hm; cases hm
        · rcases ih.2 ⟨x, hx, m, hm⟩ with ⟨m', hm'⟩
          exact ⟨m', (hmap m').2 hm'⟩

theorem runExtract_ok_of_noFail {α : Type} (f : RawRecord → ExtractStep α)
    (l : List RawRecord) (h : ∀ r ∈ l, ∀ m, f r ≠ .fail m) :
    runExtract f l = .ok (l.filterMap (keepOf f)) := by
  induction l with
  | nil => rfl
  | cons r rs ih =>
    have hrs : ∀ x ∈ rs, ∀ m, f x ≠ .fail m := fun x hx => h x (List.mem_cons_of_mem _ hx)
    cases hfr : f r with
    | skip => simp [runExtract, hfr, List.filterMap_cons, keepOf, ih hrs]
    | fail m => exact absurd hfr (h r (List.mem_cons_self r rs) m)
    | keep a => simp [runExtract, hfr, List.filterMap_cons, keepOf, ih hrs, Except.map]

theorem runExtract_ok_elim {α : Type} (f : RawRecord → ExtractStep α)
    (l : List RawRecord) (out : List α) (h : runExtract f l = .ok out) :
    out = l.filterMap (keepOf f) := by
  have hnf : ∀ r ∈ l, ∀ m, f r ≠ .fail m := by
    intro r hr m hm
    rcases (runExtract_error_iff f l).2 ⟨r, hr, m, hm⟩ with ⟨m', hm'⟩
    rw [h] at hm'; cases hm'
  have := runExtract_ok_of_noFail f l hnf
  rw [h] at this
  simpa using this

theorem lastMatch_or {α : Type} (p : α → Bool) (l : List α) :
    ∀ b : Option α,
      l.foldl (fun acc x => if p x then some x else acc) b = (lastMatch p l).or b := by
  induction l with
  | nil => intro b; simp [lastMatch, Option.or]
  | cons x l ih =>
    intro b
    have hl : lastMatch p (x :: l) = (lastMatch p l).or (if p x then some x else none) := by
      simp only [lastMatch, List.foldl_cons]
      exact ih (if p x then some x else none)
    simp only [List.foldl_cons]
    rw [ih (if p x then some x else b), hl]
    cases lastMatch p l <;> by_cases hp : p x <;> simp [hp, Option.or]

theorem lastMatch_cons {α : Type} (p : α → Bool) (y : α) (l : List α) :
    lastMatch p (y :: l) = (lastMatch p l).or (if p y then some y else none) := by
  simp only [lastMatch, List.foldl_cons]
  exact lastMatch_or p l (if p y then some y else none)

theorem lastMatch_mem {α : Type} (p : α → Bool) (l : List α) (x : α)
    (h : lastMatch p l = some x) : x ∈ l ∧ p x := by
  induction l generalizing x with
  | nil => cases h
  | cons y l ih =>
    rw [lastMatch_cons] at h
    cases hlm : lastMatch p l with
    | some z =>
      rw [hlm] at h
      simp only [Option.or] at h
      rcases ih z hlm with ⟨hz, hpz⟩
      cases h
      exact ⟨List.mem_cons_of_mem _ hz, hpz⟩
    | none =>
      rw [hlm] at h
      by_cases hp : p y <;> simp [hp, Option.or] at h
      exact h ▸ ⟨List.mem_cons_self y l, hp⟩

theorem lastMatch_none_iff {α : Type} (p : α → Bool) (l : List α) :
    lastMatch p l = none ↔ ∀ x ∈ l, p x = false := by
  induction l with
  | nil => simp [lastMatch]
  | cons y l ih =>
    rw [lastMatch_cons]
    cases hlm : lastMatch p l with
    | some z =>
      rcases lastMatch_mem p l z hlm with ⟨hz, hpz⟩
      constructor
      · intro h; simp [Option.or] at h
      · intro h
        have hfalse := h z (List.mem_cons_of_mem _ hz)
        rw [hfalse] at hpz; cases hpz
    | none =>
      have hall := ih.1 hlm
      by_cases hp : p y
      · constructor
        · intro h; simp [hp, Option.or] at h
        · intro h
          have hfalse := h y (List.mem_cons_self y l)
          rw [hfalse] at hp; cases hp
      · constructor
        · intro _ x hx
          rcases List.mem_cons.1 hx with rfl | hx
          · simpa using hp
          · exact hall x hx
        · intro _; simp [hp, Option.or]

theorem lastMatch_eq_getLast {α : Type} (p : α → Bool) (l : List α) :
    lastMatch p l = (l.filter p).getLast? := by
  induction l using List.reverseRecOn with
  | nil => rfl
  | append_singleton l x ih =>
    have h1 : lastMatch p (l ++ [x]) = if p x then some x else lastMatch p l := by
      simp [lastMatch, List.foldl_append]
    rw [h1, List.filter_append]
    by_cases hp : p x
    · simp [hp, List.getLast?_concat]
    · simp [hp, ih]

theorem ite_lt_eq_min (t b : Int) : (if t < b then t else b) = min b t := by
  rcases le_or_lt b t with h | h
  · rw [min_eq_left h, if_neg (not_lt.2 h)]
  · rw [min_eq_right h.le, if_pos h]

theorem ite_lt_eq_max (w e : Int) : (if w < e then e else w) = max w e := by
  rcases le_or_lt e w with h | h
  · rw [max_eq_left h, if_neg (not_lt.2 h)]
  · rw [max_eq_right h.le, if_pos h]

theorem sleepAccAdd_bedtime (a : SleepAcc) (s : SleepSession) :
    (sleepAccAdd a s).bedtime = some (minT a.bedtime s.start_time) := by
  simp only [sleepAccAdd]
  split_ifs <;> cases hb : a.bedtime <;> simp [minT, hb, ite_lt_eq_min]

theorem sleepAccAdd_wake (a : SleepAcc) (s : SleepSession) :
    (sleepAccAdd a s).wake_time = some (maxT a.wake_time s.end_time) := by
  simp only [sleepAccAdd]
  split_ifs <;> cases hb : a.wake_time <;> simp [maxT, hb, ite_lt_eq_max]

theorem sleepAccAdd_inBed (a : SleepAcc) (s : SleepSession) :
    (sleepAccAdd a s).total_in_bed_minutes =
      a.total_in_bed_minutes +
        (if classifyStage s.type = .inBed then s.duration_minutes else 0) := by
  simp only [sleepAccAdd, classifyStage]
  split_ifs <;> simp_all

theorem sleepAccAdd_asleep (a : SleepAcc) (s : SleepSession) :
    (sleepAccAdd a s).total_asleep_minutes =
      a.total_asleep_minutes +
        (if classifyStage s.type = .asleep then s.duration_minutes else 0) := by
  simp only [sleepAccAdd, classifyStage]
  split_ifs <;> simp_all

theorem sleepAccAdd_awake (a : SleepAcc) (s : SleepSession) :
    (sleepAccAdd a s).total_awake_minutes =
      a.total_awake_minutes +
        (if classifyStage s.type = .awake then s.duration_minutes else 0) := by
  simp only [sleepAccAdd, classifyStage]
  split_ifs <;> simp_all

theorem sleepAccAdd_core (a : SleepAcc) (s : SleepSession) :
    (sleepAccAdd a s).core_sleep_minutes =
      a.core_sleep_minutes +
        (if classifyStage s.type = .core then s.duration_minutes else 0) := by
  simp only [sleepAccAdd, classifyStage]
  split_ifs <;> simp_all

theorem sleepAccAdd_deep (a : SleepAcc) (s : SleepSession) :
    (sleepAccAdd a s).deep_sleep_minutes =
      a.deep_sleep_minutes +
        (if classifyStage s.type = .deep then s.duration_minutes else 0) := by
  simp only [sleepAccAdd, classifyStage]
  split_ifs <;> simp_all

theorem sleepAccAdd_rem (a : SleepAcc) (s : SleepSession) :
    (sleepAccAdd a s).rem_sleep_minutes =
      a.rem_sleep_minutes +
        (if classifyStage s.type = .rem then s.duration_minutes else 0) := by
  simp only [sleepAccAdd, classifyStage]
  split_ifs <;> simp_all

theorem foldl_sleepAccAdd_inBed (l : List SleepSession) :
    ∀ a : SleepAcc, (l.foldl sleepAccAdd a).total_in_bed_minutes =
      a.total_in_bed_minutes + stageSumL l .inBed := by
  induction l with
  | nil => intro a; simp [stageSumL]
  | cons s l ih =>
    intro a
    simp only [List.foldl_cons]
    rw [ih (sleepAccAdd a s), sleepAccAdd_inBed]
    by_cases h : classifyStage s.type = .inBed
    · simp [stageSumL, List.filter_cons, h]; ring
    · simp [stageSumL, List.filter_cons, h]

theorem foldl_sleepAccAdd_asleep (l : List SleepSession) :
    ∀ a : SleepAcc, (l.foldl sleepAccAdd a).total_asleep_minutes =
      a.total_asleep_minutes + stageSumL l .asleep := by
  induction l with
  | nil => intro a; simp [stageSumL]
  | cons s l ih =>
    intro a
    simp only [List.foldl_cons]
    rw [ih (sleepAccAdd a s), sleepAccAdd_asleep]
    by_cases h : classifyStage s.type = .asleep
    · simp [stageSumL, List.filter_cons, h]; ring
    · simp [stageSumL, List.filter_cons, h]

theorem foldl_sleepAccAdd_awake (l : List SleepSession) :
    ∀ a : SleepAcc, (l.foldl sleepAccAdd a).total_awake_minutes =
      a.total_awake_minutes + stageSumL l .awake := by
  induction l with
  | nil => intro a; simp [stageSumL]
  | cons s l ih =>
    intro a
    simp only [List.foldl_cons]
    rw [ih (sleepAccAdd a s), sleepAccAdd_awake]
    by_cases h : classifyStage s.type = .awake
    · simp [stageSumL, List.filter_cons, h]; ring
    · simp [stageSumL, List.filter_cons, h]

theorem foldl_sleepAccAdd_core (l : List SleepSession) :
    ∀ a : SleepAcc, (l.foldl sleepAccAdd a).core_sleep_minutes =
      a.core_sleep_minutes + stageSumL l .core := by
  induction l with
  | nil => intro a; simp [stageSumL]
  | cons s l ih =>
    intro a
    simp only [List.foldl_cons]
    rw [ih (sleepAccAdd a s), sleepAccAdd_core]
    by_cases h : classifyStage s.type = .core
    · simp [stageSumL, List.filter_cons, h]; ring
    · simp [stageSumL, List.filter_cons, h]

theorem foldl_sleepAccAdd_deep (l : List SleepSession) :
    ∀ a : SleepAcc, (l.foldl sleepAccAdd a).deep_sleep_minutes =
      a.deep_sleep_minutes + stageSumL l .deep := by
  induction l with
  | nil => intro a; simp [stageSumL]
  | cons s l ih =>
    intro a
    simp only [List.foldl_cons]
    rw [ih (sleepAccAdd a s), sleepAccAdd_deep]
    by_cases h : classifyStage s.type = .deep
    · simp [stageSumL, List.filter_cons, h]; ring
    · simp [stageSumL, List.filter_cons, h]

theorem foldl_sleepAccAdd_rem (l : List SleepSession) :
    ∀ a : SleepAcc, (l.foldl sleepAccAdd a).rem_sleep_minutes =
      a.rem_sleep_minutes + stageSumL l .rem := by
  induction l with
  | nil => intro a; simp [stageSumL]
  | cons s l ih =>
    intro a
    simp only [List.foldl_cons]
    rw [ih (sleepAccAdd a s), sleepAccAdd_rem]
    by_cases h : classifyStage s.type = .rem
    · simp [stageSumL, List.filter_cons, h]; ring
    · simp [stageSumL, List.filter_cons, h]

theorem foldl_sleepAccAdd_bedtime (l : List SleepSession) :
    ∀ a : SleepAcc, (l.foldl sleepAccAdd a).bedtime =
      ominFold a.bedtime (l.map (fun s => s.start_time)) := by
  induction l with
  | nil => intro a; simp [ominFold]
  | cons s l ih =>
    intro a
    simp only [List.foldl_cons, List.map_cons]
    rw [ih (sleepAccAdd a s), sleepAccAdd_bedtime]
    simp [ominFold]

theorem foldl_sleepAccAdd_wake (l : List SleepSession) :
    ∀ a : SleepAcc, (l.foldl sleepAccAdd a).wake_time =
      omaxFold a.wake_time (l.map (fun s => s.end_time)) := by
  induction l with
  | nil => intro a; simp [omaxFold]
  | cons s l ih =>
    intro a
    simp only [List.foldl_cons, List.map_cons]
    rw [ih (sleepAccAdd a s), sleepAccAdd_wake]
    simp [omaxFold]

theorem minT_le (b : Option Int) (t : Int) : minT b t ≤ t := by
  cases b <;> simp [minT]

theorem le_maxT (b : Option Int) (t : Int) : t ≤ maxT b t := by
  cases b <;> simp [maxT]

theorem ominFold_spec (ts : List Int) :
    ∀ (b : Option Int) (m : Int), ominFold b ts = some m →
      (∀ t ∈ ts, m ≤ t) ∧ (m ∈ ts ∨ b = some m) ∧ (∀ b0, b = some b0 → m ≤ b0) := by
  induction ts with
  | nil =>
    intro b m h
    simp only [ominFold, List.foldl_nil] at h
    exact ⟨by simp, Or.inr h, fun b0 hb0 => by rw [h] at hb0; cases hb0; exact le_refl m⟩
  | cons t ts ih =>
    intro b m h
    have h' : ominFold (some (minT b t)) ts = some m := by
      simpa [ominFold] using h
    rcases ih _ m h' with ⟨hle, hmem, hbase⟩
    have hmt : m ≤ minT b t := hbase _ rfl
    have hmlet : m ≤ t := le_trans hmt (minT_le b t)
    refine ⟨?_, ?_, ?_⟩
    · intro u hu
      rcases List.mem_cons.1 hu with rfl | hu
      · exact hmlet
      · exact hle u hu
    · rcases hmem with hm | hm
      · exact Or.inl (List.mem_cons_of_mem _ hm)
      · have hm' : minT b t = m := Option.some.inj hm
        cases hb : b with
        | none =>
          rw [hb] at hm'; simp only [minT] at hm'
          exact Or.inl (hm' ▸ List.mem_cons_self t ts)
        | some b0 =>
          rw [hb] at hm'; simp only [minT] at hm'
          rcases min_choice b0 t with hc | hc
          · right; rw [hc] at hm'; rw [hm']
          · left; rw [hc] at hm'; exact hm' ▸ List.mem_cons_self t ts
    · intro b0 hb0
      rw [hb0] at hmt
      simp only [minT] at hmt
      exact le_trans hmt (min_le_left b0 t)

theorem omaxFold_spec (ts : List Int) :
    ∀ (b : Option Int) (m : Int), omaxFold b ts = some m →
      (∀ t ∈ ts, t ≤ m) ∧ (m ∈ ts ∨ b = some m) ∧ (∀ b0, b = some b0 → b0 ≤ m) := by
  induction ts with
  | nil =>
    intro b m h
    simp only [omaxFold, List.foldl_nil] at h
    exact ⟨by simp, Or.inr h, fun b0 hb0 => by rw [h] at hb0; cases hb0; exact le_refl m⟩
  | cons t ts ih =>
    intro b m h
    have h' : omaxFold (some (maxT b t)) ts = some m := by
      simpa [omaxFold] using h
    rcases ih _ m h' with ⟨hle, hmem, hbase⟩
    have hmt : maxT b t ≤ m := hbase _ rfl
    have hmlet : t ≤ m := le_trans (le_maxT b t) hmt
    refine ⟨?_, ?_, ?_⟩
    · intro u hu
      rcases List.mem_cons.1 hu with rfl | hu
      · exact hmlet
      · exact hle u hu
    · rcases hmem with hm | hm
      · exact Or.inl (List.mem_cons_of_mem _ hm)
      · have hm' : maxT b t = m := Option.some.inj hm
        cases hb : b with
        | none =>
          rw [hb] at hm'; simp only [maxT] at hm'
          exact Or.inl (hm' ▸ List.mem_cons_self t ts)
        | some b0 =>
          rw [hb] at hm'; simp only [maxT] at hm'
          rcases max_choice b0 t with hc | hc
          · right; rw [hc] at hm'; rw [hm']
          · left; rw [hc] at hm'; exact hm' ▸ List.mem_cons_self t ts
    · intro b0 hb0
      rw [hb0] at hmt
      simp only [maxT] at hmt
      exact le_trans (le_max_left b0 t) hmt

theorem ominFold_isSome (ts : List Int) :
    ∀ b : Option Int, b.isSome ∨ ts ≠ [] → (ominFold b ts).isSome := by
  induction ts with
  | nil =>
    intro b h
    rcases h with h | h
    · simpa [ominFold] using h
    · exact absurd rfl h
  | cons t ts ih =>
    intro b _
    have := ih (some (minT b t)) (Or.inl rfl)
    simpa [ominFold] using this

theorem omaxFold_isSome (ts : List Int) :
    ∀ b : Option Int, b.isSome ∨ ts ≠ [] → (omaxFold b ts).isSome := by
  induction ts with
  | nil =>
    intro b h
    rcases h with h | h
    · simpa [omaxFold] using h
    · exact absurd rfl h
  | cons t ts ih =>
    intro b _
    have := ih (some (maxT b t)) (Or.inl rfl)
    simpa [omaxFold] using this

theorem foldl_addSession_keys (l : List SleepSession) :
    ∀ (st : SleepState) (d : Int),
      d ∈ (l.foldl addSession st).keys ↔ d ∈ st.keys ∨ ∃ s ∈ l, s.date = d := by
  induction l with
  | nil => intro st d; simp
  | cons s l ih =>
    intro st d
    simp only [List.foldl_cons]
    rw [ih]
    simp only [addSession]
    by_cases hmem : s.date ∈ st.keys
    · simp only [hmem, if_true]
      constructor
      · rintro (h | ⟨x, hx, hxd⟩)
        · exact Or.inl h
        · exact Or.inr ⟨x, List.mem_cons_of_mem _ hx, hxd⟩
      · rintro (h | ⟨x, hx, hxd⟩)
        · exact Or.inl h
        · rcases List.mem_cons.1 hx with rfl | hx
          · exact Or.inl (hxd ▸ hmem)
          · exact Or.inr ⟨x, hx, hxd⟩
    · simp only [hmem, if_false, List.mem_append, List.mem_singleton]
      constructor
      · rintro ((h | h) | ⟨x, hx, hxd⟩)
        · exact Or.inl h
        · exact Or.inr ⟨s, List.mem_cons_self s l, h.symm⟩
        · exact Or.inr ⟨x, List.mem_cons_of_mem _ hx, hxd⟩
      · rintro (h | ⟨x, hx, hxd⟩)
        · exact Or.inl (Or.inl h)
        · rcases List.mem_cons.1 hx with rfl | hx
          · exact Or.inl (Or.inr hxd.symm)
          · exact Or.inr ⟨x, hx, hxd⟩

theorem foldl_addSession_tbl (l : List SleepSession) :
    ∀ (st : SleepState) (d : Int),
      (l.foldl addSession st).tbl d = (sessionsOn l d).foldl sleepAccAdd (st.tbl d) := by
  induction l with
  | nil => intro st d; rfl
  | cons s l ih =>
    intro st d
    simp only [List.foldl_cons, sessionsOn, List.filter_cons]
    rw [ih]
    by_cases h : s.date = d
    · simp [sessionsOn, addSession, h]
    · have h' : ¬ d = s.date := fun hc => h hc.symm
      simp [sessionsOn, addSession, h, h']

theorem mem_aggregateDailySleep (ss : List SleepSession) (r : DailySleep) :
    r ∈ aggregateDailySleep ss ↔
      ∃ d, (∃ s ∈ ss, s.date = d) ∧
        r = finalizeSleep d ((ss.foldl addSession ⟨[], fun _ => {}⟩).tbl d) := by
  simp only [aggregateDailySleep, List.mem_map]
  constructor
  · rintro ⟨d, hd, rfl⟩
    have hd' := (List.perm_insertionSort (fun x y => x ≤ y) _).mem_iff.1 hd
    have := (foldl_addSession_keys ss _ d).1 hd'
    simp only [List.not_mem_nil, false_or] at this
    rcases this with ⟨s, hs, hsd⟩
    · exact ⟨d, ⟨s, hs, hsd⟩, rfl⟩
  · rintro ⟨d, hd, rfl⟩
    refine ⟨d, ?_, rfl⟩
    exact (List.perm_insertionSort (fun x y => x ≤ y) _).mem_iff.2
      ((foldl_addSession_keys ss _ d).2 (Or.inr hd))

theorem aggregateDailySleep_row (ss : List SleepSession) (r : DailySleep)
    (h : r ∈ aggregateDailySleep ss) :
    (∃ s ∈ ss, s.date = r.date) ∧
    r.time_in_bed_hours = roundTo 2 (stageSum ss r.date .inBed / 60) ∧
    r.total_sleep_hours = roundTo 2 ((stageSum ss r.date .asleep + stageSum ss r.date .core +
      stageSum ss r.date .deep + stageSum ss r.date .rem) / 60) ∧
    r.awake_minutes = roundTo 1 (stageSum ss r.date .awake) ∧
    r.core_sleep_hours = roundTo 2 (stageSum ss r.date .core / 60) ∧
    r.deep_sleep_hours = roundTo 2 (stageSum ss r.date .deep / 60) ∧
    r.rem_sleep_hours = roundTo 2 (stageSum ss r.date .rem / 60) ∧
    r.bedtime = (ominFold none ((sessionsOn ss r.date).map (fun s => s.start_time))).map formatHM ∧
    r.wake_time = (omaxFold none ((sessionsOn ss r.date).map (fun s => s.end_time))).map formatHM := by
  rcases (mem_aggregateDailySleep ss r).1 h with ⟨d, hd, rfl⟩
  have hdate : (finalizeSleep d ((ss.foldl addSession ⟨[], fun _ => {}⟩).tbl d)).date = d := rfl
  rw [hdate]
  have htbl := foldl_addSession_tbl ss ⟨[], fun _ => {}⟩ d
  have hinit : (SleepState.mk [] (fun _ => {})).tbl d = ({} : SleepAcc) := rfl
  rw [hinit] at htbl
  simp only [finalizeSleep, htbl]
  have h1 := foldl_sleepAccAdd_inBed (sessionsOn ss d) ({} : SleepAcc)
  have h2 := foldl_sleepAccAdd_asleep (sessionsOn ss d) ({} : SleepAcc)
  have h3 := foldl_sleepAccAdd_awake (sessionsOn ss d) ({} : SleepAcc)
  have h4 := foldl_sleepAccAdd_core (sessionsOn ss d) ({} : SleepAcc)
  have h5 := foldl_sleepAccAdd_deep (sessionsOn ss d) ({} : SleepAcc)
  have h6 := foldl_sleepAccAdd_rem (sessionsOn ss d) ({} : SleepAcc)
  have h7 := foldl_sleepAccAdd_bedtime (sessionsOn ss d) ({} : SleepAcc)
  have h8 := foldl_sleepAccAdd_wake (sessionsOn ss d) ({} : SleepAcc)
  refine ⟨hd, ?_, ?_, ?_, ?_, ?_, ?_, ?_, ?_⟩ <;>
    simp [h1, h2, h3, h4, h5, h6, h7, h8, stageSum]

theorem addHeartRate_keeps_resting (st : HeartState) (m : HeartRateRec) (d : Int) :
    ((addHeartRate st m).tbl d).resting_hr = (st.tbl d).resting_hr := by
  by_cases h : d = m.date <;> simp [addHeartRate, h]

theorem addHeartRate_keeps_hrv (st : HeartState) (m : HeartRateRec) (d : Int) :
    ((addHeartRate st m).tbl d).hrv = (st.tbl d).hrv := by
  by_cases h : d = m.date <;> simp [addHeartRate, h]

theorem foldl_addHeartRate_resting (l : List HeartRateRec) :
    ∀ (st : HeartState) (d : Int),
      ((l.foldl addHeartRate st).tbl d).resting_hr = (st.tbl d).resting_hr := by
  induction l with
  | nil => intro st d; rfl
  | cons m l ih =>
    intro st d
    simp only [List.foldl_cons]
    rw [ih (addHeartRate st m) d, addHeartRate_keeps_resting]

theorem foldl_addHeartRate_hrv (l : List HeartRateRec) :
    ∀ (st : HeartState) (d : Int),
      ((l.foldl addHeartRate st).tbl d).hrv = (st.tbl d).hrv := by
  induction l with
  | nil => intro st d; rfl
  | cons m l ih =>
    intro st d
    simp only [List.foldl_cons]
    rw [ih (addHeartRate st m) d, addHeartRate_keeps_hrv]

theorem statsApply_keeps_resting (a : HeartAcc) : (statsApply a).resting_hr = a.resting_hr := by
  by_cases h : a.hr_values = [] <;> simp [statsApply, h]

theorem statsApply_keeps_hrv (a : HeartAcc) : (statsApply a).hrv = a.hrv := by
  by_cases h : a.hr_values = [] <;> simp [statsApply, h]

theorem statsPass_keeps_resting (st : HeartState) (d : Int) :
    ((statsPass st).tbl d).resting_hr = (st.tbl d).resting_hr := by
  by_cases h : d ∈ st.keys <;> simp [statsPass, h, statsApply_keeps_resting]

theorem statsPass_keeps_hrv (st : HeartState) (d : Int) :
    ((statsPass st).tbl d).hrv = (st.tbl d).hrv := by
  by_cases h : d ∈ st.keys <;> simp [statsPass, h, statsApply_keeps_hrv]

theorem optionMapOr {α β : Type} (f : α → β) (a b : Option α) :
    (a.or b).map f = (a.map f).or (b.map f) := by
  cases a <;> simp [Option.or]

theorem foldl_addResting_resting (l : List RestingRec) :
    ∀ (st : HeartState) (d : Int),
      ((l.foldl addResting st).tbl d).resting_hr =
        ((lastMatch (fun x => x.date = d) l).map (fun x => x.resting_heart_rate)).or
          ((st.tbl d).resting_hr) := by
  induction l with
  | nil => intro st d; simp [lastMatch, Option.or]
  | cons m l ih =>
    intro st d
    simp only [List.foldl_cons]
    rw [ih (addResting st m) d, lastMatch_cons, optionMapOr]
    have hstep : ((addResting st m).tbl d).resting_hr =
        if m.date = d then some m.resting_heart_rate else (st.tbl d).resting_hr := by
      by_cases h : m.date = d
      · simp [addResting, h]
      · have h' : ¬ d = m.date := fun hc => h hc.symm
        simp [addResting, h, h']
    rw [hstep]
    by_cases h : m.date = d <;>
      cases hl : (lastMatch (fun x => x.date = d) l).map (fun x => x.resting_heart_rate) <;>
        simp [h, Option.or]

theorem foldl_addResting_hrv (l : List RestingRec) :
    ∀ (st : HeartState) (d : Int),
      ((l.foldl addResting st).tbl d).hrv = (st.tbl d).hrv := by
  induction l with
  | nil => intro st d; rfl
  | cons m l ih =>
    intro st d
    simp only [List.foldl_cons]
    rw [ih (addResting st m) d]
    by_cases h : d = m.date <;> simp [addResting, h]

theorem foldl_addHrv_hrv (l : List HrvRec) :
    ∀ (st : HeartState) (d : Int),
      ((l.foldl addHrv st).tbl d).hrv =
        ((lastMatch (fun x => x.date = d) l).map (fun x => x.hrv_sdnn)).or
          ((st.tbl d).hrv) := by
  induction l with
  | nil => intro st d; simp [lastMatch, Option.or]
  | cons m l ih =>
    intro st d
    simp only [List.foldl_cons]
    rw [ih (addHrv st m) d, lastMatch_cons, optionMapOr]
    have hstep : ((addHrv st m).tbl d).hrv =
        if m.date = d then some m.hrv_sdnn else (st.tbl d).hrv := by
      by_cases h : m.date = d
      · simp [addHrv, h]
      · have h' : ¬ d = m.date := fun hc => h hc.symm
        simp [addHrv, h, h']
    rw [hstep]
    by_cases h : m.date = d <;>
      cases hl : (lastMatch (fun x => x.date = d) l).map (fun x => x.hrv_sdnn) <;>
        simp [h, Option.or]

theorem foldl_addHrv_resting (l : List HrvRec) :
    ∀ (st : HeartState) (d : Int),
      ((l.foldl addHrv st).tbl d).resting_hr = (st.tbl d).resting_hr := by
  induction l with
  | nil => intro st d; rfl
  | cons m l ih =>
    intro st d
    simp only [List.foldl_cons]
    rw [ih (addHrv st m) d]
    by_cases h : d = m.date <;> simp [addHrv, h]

theorem finalizeHeart_date (d : Int) (a : HeartAcc) : (finalizeHeart d a).date = d := rfl

theorem aggregateDailyHeartData_row (heartRates : List HeartRateRec)
    (restingHrs : List RestingRec) (hrvs : List HrvRec) (r : DailyHeart)
    (h : r ∈ aggregateDailyHeartData heartRates restingHrs hrvs) :
    r.resting_hr =
      (lastMatch (fun x => x.date = r.date) restingHrs).map (fun x => x.resting_heart_rate) ∧
    r.hrv = (lastMatch (fun x => x.date = r.date) hrvs).map (fun x => x.hrv_sdnn) := by
  simp only [aggregateDailyHeartData, List.mem_map] at h
  rcases h with ⟨d, _, rfl⟩
  simp only [finalizeHeart_date]
  constructor
  · show ((hrvs.foldl addHrv (restingHrs.foldl addResting
        (statsPass (heartRates.foldl addHeartRate ⟨[], fun _ => {}⟩)))).tbl d).resting_hr = _
    rw [foldl_addHrv_resting, foldl_addResting_resting, statsPass_keeps_resting,
      foldl_addHeartRate_resting]
    have hinit : ((HeartState.mk [] (fun _ => {})).tbl d).resting_hr = none := rfl
    rw [hinit]
    cases lastMatch (fun x => x.date = d) restingHrs <;> simp [Option.or]
  · show ((hrvs.foldl addHrv (restingHrs.foldl addResting
        (statsPass (heartRates.foldl addHeartRate ⟨[], fun _ => {}⟩)))).tbl d).hrv = _
    rw [foldl_addHrv_hrv, foldl_addResting_hrv, statsPass_keeps_hrv, foldl_addHeartRate_hrv]
    have hinit : ((HeartState.mk [] (fun _ => {})).tbl d).hrv = none := rfl
    rw [hinit]
    cases lastMatch (fun x => x.date = d) hrvs <;> simp [Option.or]

theorem generateSpreadsheet_dates (sleepData : List DailySleep) (heartData : List DailyHeart) :
    (generateSpreadsheet sleepData heartData).map (fun r => r.date) =
      ((sleepData.map (fun x => x.date) ++ heartData.map (fun x => x.date)).dedup).insertionSort
        (fun x y => x ≤ y) := by
  simp only [generateSpreadsheet, List.map_map]
  exact List.map_id _

theorem mem_generateSpreadsheet_elim (sleepData : List DailySleep)
    (heartData : List DailyHeart) (r : CombinedRow)
    (h : r ∈ generateSpreadsheet sleepData heartData) :
    r.sleep = lastMatch (fun x => x.date = r.date) sleepData ∧
    r.heart = lastMatch (fun x => x.date = r.date) heartData := by
  simp only [generateSpreadsheet, List.mem_map] at h
  rcases h with ⟨d, _, rfl⟩
  exact ⟨rfl, rfl⟩

/-- C1: the merge step produces exactly one output row per date in the union
of the two inputs' date sets, in ascending date order: a date with data in
either input appears (and appears once), no other date appears, and a row's
sleep (resp. cardiac) side is the absent marker exactly when no sleep (resp.
cardiac) summary carries that date, otherwise it carries that date's summary
fields. -/
theorem c1_merge_outer_join (sleepData : List DailySleep) (heartData : List DailyHeart) :
    (∀ d, (∃ r ∈ generateSpreadsheet sleepData heartData, r.date = d) ↔
      ((∃ x ∈ sleepData, x.date = d) ∨ (∃ y ∈ heartData, y.date = d))) ∧
    ((generateSpreadsheet sleepData heartData).map (fun r => r.date)).Nodup ∧
    List.Sorted (fun x y => x ≤ y)
      ((generateSpreadsheet sleepData heartData).map (fun r => r.date)) ∧
    (∀ r ∈ generateSpreadsheet sleepData heartData,
      (r.sleep = none ↔ ∀ x ∈ sleepData, x.date ≠ r.date) ∧
      (∀ ds, r.sleep = some ds → ds ∈ sleepData ∧ ds.date = r.date) ∧
      (r.heart = none ↔ ∀ y ∈ heartData, y.date ≠ r.date) ∧
      (∀ dh, r.heart = some dh → dh ∈ heartData ∧ dh.date = r.date)) := by
  refine ⟨?_, ?_, ?_, ?_⟩
  · intro d
    have hmem : (∃ r ∈ generateSpreadsheet sleepData heartData, r.date = d) ↔
        d ∈ (generateSpreadsheet sleepData heartData).map (fun r => r.date) :=
      Iff.symm List.mem_map
    rw [hmem, generateSpreadsheet_dates,
      (List.perm_insertionSort (fun x y => x ≤ y) _).mem_iff, List.mem_dedup,
      List.mem_append]
    simp [List.mem_map]
  · rw [generateSpreadsheet_dates]
    exact ((List.perm_insertionSort (fun x y => x ≤ y) _).nodup_iff).2 (List.nodup_dedup _)
  · rw [generateSpreadsheet_dates]
    exact List.sorted_insertionSort (fun x y => x ≤ y) _
  · intro r hr
    rcases mem_generateSpreadsheet_elim sleepData heartData r hr with ⟨hs, hh⟩
    refine ⟨?_, ?_, ?_, ?_⟩
    · rw [hs, lastMatch_none_iff]
      constructor
      · intro hall x hx
        have := hall x hx
        simpa using this
      · intro hall x hx
        simpa using hall x hx
    · intro ds hds
      rw [hs] at hds
      have := lastMatch_mem _ _ _ hds
      exact ⟨this.1, by simpa using this.2⟩
    · rw [hh, lastMatch_none_iff]
      constructor
      · intro hall y hy
        have := hall y hy
        simpa using this
      · intro hall y hy
        simpa using hall y hy
    · intro dh hdh
      rw [hh] at hdh
      have := lastMatch_mem _ _ _ hdh
      exact ⟨this.1, by simpa using this.2⟩

theorem extractSleep_oow (now daysBack : Int) (r : RawRecord)
    (h : outOfWindow now daysBack r = true) : extractSleep now daysBack r = .skip := by
  simp only [outOfWindow] at h
  cases hs : r.startDate with
  | none => rw [hs] at h; cases h
  | some s =>
    rw [hs] at h
    simp only [decide_eq_true_eq] at h
    by_cases ht : r.type = "HKCategoryTypeIdentifierSleepAnalysis"
    · cases he : r.endDate <;> simp [extractSleep, hs, he, ht, h]
    · simp [extractSleep, ht]

theorem extractHeartRate_oow (now daysBack : Int) (r : RawRecord)
    (h : outOfWindow now daysBack r = true) : extractHeartRate now daysBack r = .skip := by
  simp only [outOfWindow] at h
  cases hs : r.startDate with
  | none => rw [hs] at h; cases h
  | some s =>
    rw [hs] at h
    simp only [decide_eq_true_eq] at h
    by_cases ht : r.type = "HKQuantityTypeIdentifierHeartRate"
    · simp [extractHeartRate, hs, ht, h]
    · simp [extractHeartRate, ht]

theorem extractResting_oow (now daysBack : Int) (r : RawRecord)
    (h : outOfWindow now daysBack r = true) : extractResting now daysBack r = .skip := by
  simp only [outOfWindow] at h
  cases hs : r.startDate with
  | none => rw [hs] at h; cases h
  | some s =>
    rw [hs] at h
    simp only [decide_eq_true_eq] at h
    by_cases ht : r.type = "HKQuantityTypeIdentifierRestingHeartRate"
    · simp [extractResting, hs, ht, h]
    · simp [extractResting, ht]

theorem extractHrv_oow (now daysBack : Int) (r : RawRecord)
    (h : outOfWindow now daysBack r = true) : extractHrv now daysBack r = .skip := by
  simp only [outOfWindow] at h
  cases hs : r.startDate with
  | none => rw [hs] at h; cases h
  | some s =>
    rw [hs] at h
    simp only [decide_eq_true_eq] at h
    by_cases ht : r.type = "HKQuantityTypeIdentifierHeartRateVariabilitySDNN"
    · simp [extractHrv, hs, ht, h]
    · simp [extractHrv, ht]

/-- C2: an event with parsed timestamps is picked up by its extractor exactly
when its start lies at or after now - days_back days (shown for the sleep and
heart-rate extractors, whose loops the claim cites), and dropping every
record that starts before the cutoff does not change the pipeline output at
all, so such records are excluded from every downstream summary. -/
theorem c2_window_filter (now daysBack : Int) :
    (∀ (r : RawRecord) (s e : Timestamp) (v : String),
      r.type = "HKCategoryTypeIdentifierSleepAnalysis" →
      r.startDate = some s → r.endDate = some e → r.value = some v →
      ((∃ sess, extractSleep now daysBack r = .keep sess) ↔ now - daysBack * 86400 ≤ s)) ∧
    (∀ (r : RawRecord) (s : Timestamp) (q : ℚ),
      r.type = "HKQuantityTypeIdentifierHeartRate" →
      r.startDate = some s → pyFloat r.value = .ok q →
      ((∃ m, extractHeartRate now daysBack r = .keep m) ↔ now - daysBack * 86400 ≤ s)) ∧
    (∀ records : List RawRecord,
      runPipeline now daysBack
        (records.filter (fun r => !outOfWindow now daysBack r)) =
      runPipeline now daysBack records) := by
  refine ⟨?_, ?_, ?_⟩
  · intro r s e v ht hs he hv
    constructor
    · rintro ⟨sess, hsess⟩
      by_cases hlt : s < now - daysBack * 86400
      · simp [extractSleep, ht, hs, he, hv, hlt] at hsess
      · exact not_lt.1 hlt
    · intro hge
      have hlt : ¬ s < now - daysBack * 86400 := not_lt.2 hge
      refine ⟨SleepSession.mk (dateOf s) s e (roundTo 2 (((e - s : ℤ) : ℚ) / 60))
        (roundTo 2 ((((e - s : ℤ) : ℚ) / 60) / 60)) (stripStageLabel v)
        (r.sourceName.getD "Unknown"), ?_⟩
      simp [extractSleep, ht, hs, he, hv, hlt]
  · intro r s q ht hs hq
    constructor
    · rintro ⟨m, hm⟩
      by_cases hlt : s < now - daysBack * 86400
      · simp [extractHeartRate, ht, hs, hq, hlt] at hm
      · exact not_lt.1 hlt
    · intro hge
      have hlt : ¬ s < now - daysBack * 86400 := not_lt.2 hge
      refine ⟨HeartRateRec.mk s (dateOf s) (roundTo 1 q) r.unit
        (r.sourceName.getD "Unknown"), ?_⟩
      simp [extractHeartRate, ht, hs, hq, hlt]
  · intro records
    have h1 := runExtract_filter (extractSleep now daysBack)
      (fun r => !outOfWindow now daysBack r)
      (fun r hr => extractSleep_oow now daysBack r (by simpa using hr)) records
    have h2 := runExtract_filter (extractHeartRate now daysBack)
      (fun r => !outOfWindow now daysBack r)
      (fun r hr => extractHeartRate_oow now daysBack r (by simpa using hr)) records
    have h3 := runExtract_filter (extractResting now daysBack)
      (fun r => !outOfWindow now daysBack r)
      (fun r hr => extractResting_oow now daysBack r (by simpa using hr)) records
    have h4 := runExtract_filter (extractHrv now daysBack)
      (fun r => !outOfWindow now daysBack r)
      (fun r hr => extractHrv_oow now daysBack r (by simpa using hr)) records
    simp only [runPipeline, processSleepData, processHeartRateData,
      processRestingHeartRate, processHrvData, h1, h2, h3, h4]

/-- C9: the embedded pipeline is a pure function of the record sequence, the
days_back configuration and the injected reference time (the wall clock read
by datetime.now() at the extractor call sites is modelled by that single
parameter): two runs on equal inputs produce equal row sequences. -/
theorem c9_pipeline_deterministic (records1 records2 : List RawRecord)
    (now1 now2 daysBack1 daysBack2 : Int)
    (hr : records1 = records2) (hn : now1 = now2) (hd : daysBack1 = daysBack2) :
    runPipeline now1 daysBack1 records1 = runPipeline now2 daysBack2 records2 := by
  subst hr; subst hn; subst hd; rfl

theorem extractHeartRate_fail_iff (now daysBack : Int) (r : RawRecord) :
    (∃ m, extractHeartRate now daysBack r = .fail m) ↔
      (r.type = "HKQuantityTypeIdentifierHeartRate" ∧
       (∃ s, r.startDate = some s ∧ now - daysBack * 86400 ≤ s) ∧
       ∃ m, pyFloat r.value = .error m) := by
  by_cases ht : r.type = "HKQuantityTypeIdentifierHeartRate"
  · cases hs : r.startDate with
    | none => simp [extractHeartRate, ht, hs]
    | some s =>
      by_cases hlt : s < now - daysBack * 86400
      · have hnle : ¬ (now - daysBack * 86400 ≤ s) := not_le.2 hlt
        simp [extractHeartRate, ht, hs, hlt, hnle]
        intro hc
        exact absurd hc (by omega)
      · have hle : now - daysBack * 86400 ≤ s := not_lt.1 hlt
        cases hv : pyFloat r.value with
        | error m =>
          simp [extractHeartRate, ht, hs, hlt, hv, hle]
          omega
        | ok q => simp [extractHeartRate, ht, hs, hlt, hv]
  · simp [extractHeartRate, ht]

theorem extractResting_fail_iff (now daysBack : Int) (r : RawRecord) :
    (∃ m, extractResting now daysBack r = .fail m) ↔
      (r.type = "HKQuantityTypeIdentifierRestingHeartRate" ∧
       (∃ s, r.startDate = some s ∧ now - daysBack * 86400 ≤ s) ∧
       ∃ m, pyFloat r.value = .error m) := by
  by_cases ht : r.type = "HKQuantityTypeIdentifierRestingHeartRate"
  · cases hs : r.startDate with
    | none => simp [extractResting, ht, hs]
    | some s =>
      by_cases hlt : s < now - daysBack * 86400
      · have hnle : ¬ (now - daysBack * 86400 ≤ s) := not_le.2 hlt
        simp [extractResting, ht, hs, hlt, hnle]
        intro hc
        exact absurd hc (by omega)
      · have hle : now - daysBack * 86400 ≤ s := not_lt.1 hlt
        cases hv : pyFloat r.value with
        | error m =>
          simp [extractResting, ht, hs, hlt, hv, hle]
          omega
        | ok q => simp [extractResting, ht, hs, hlt, hv]
  · simp [extractResting, ht]

theorem extractHrv_fail_iff (now daysBack : Int) (r : RawRecord) :
    (∃ m, extractHrv now daysBack r = .fail m) ↔
      (r.type = "HKQuantityTypeIdentifierHeartRateVariabilitySDNN" ∧
       (∃ s, r.startDate = some s ∧ now - daysBack * 86400 ≤ s) ∧
       ∃ m, pyFloat r.value = .error m) := by
  by_cases ht : r.type = "HKQuantityTypeIdentifierHeartRateVariabilitySDNN"
  · cases hs : r.startDate with
    | none => simp [extractHrv, ht, hs]
    | some s =>
      by_cases hlt : s < now - daysBack * 86400
      · have hnle : ¬ (now - daysBack * 86400 ≤ s) := not_le.2 hlt
        simp [extractHrv, ht, hs, hlt, hnle]
        intro hc
        exact absurd hc (by omega)
      · have hle : now - daysBack * 86400 ≤ s := not_lt.1 hlt
        cases hv : pyFloat r.value with
        | error m =>
          simp [extractHrv, ht, hs, hlt, hv, hle]
          omega
        | ok q => simp [extractHrv, ht, hs, hlt, hv]
  · simp [extractHrv, ht]

/-- C3 (amended): a missing or non-numeric value on an in-window cardiac
record is not skipped and counted: float() raises and the exception escapes
the extraction loop, so the whole extraction returns an error — and it does
so exactly when such a record exists in the input. -/
theorem c3_value_error_aborts_run (now daysBack : Int) (records : List RawRecord) :
    ((∃ m, processHeartRateData now daysBack records = .error m) ↔
      ∃ r ∈ records, r.type = "HKQuantityTypeIdentifierHeartRate" ∧
        (∃ s, r.startDate = some s ∧ now - daysBack * 86400 ≤ s) ∧
        ∃ m, pyFloat r.value = .error m) ∧
    ((∃ m, processRestingHeartRate now daysBack records = .error m) ↔
      ∃ r ∈ records, r.type = "HKQuantityTypeIdentifierRestingHeartRate" ∧
        (∃ s, r.startDate = some s ∧ now - daysBack * 86400 ≤ s) ∧
        ∃ m, pyFloat r.value = .error m) ∧
    ((∃ m, processHrvData now daysBack records = .error m) ↔
      ∃ r ∈ records, r.type = "HKQuantityTypeIdentifierHeartRateVariabilitySDNN" ∧
        (∃ s, r.startDate = some s ∧ now - daysBack * 86400 ≤ s) ∧
        ∃ m, pyFloat r.value = .error m) := by
  refine ⟨?_, ?_, ?_⟩
  · rw [processHeartRateData, runExtract_error_iff]
    exact ⟨fun ⟨r, hr, hm⟩ => ⟨r, hr, (extractHeartRate_fail_iff now daysBack r).1 hm⟩,
      fun ⟨r, hr, hm⟩ => ⟨r, hr, (extractHeartRate_fail_iff now daysBack r).2 hm⟩⟩
  · rw [processRestingHeartRate, runExtract_error_iff]
    exact ⟨fun ⟨r, hr, hm⟩ => ⟨r, hr, (extractResting_fail_iff now daysBack r).1 hm⟩,
      fun ⟨r, hr, hm⟩ => ⟨r, hr, (extractResting_fail_iff now daysBack r).2 hm⟩⟩
  · rw [processHrvData, runExtract_error_iff]
    exact ⟨fun ⟨r, hr, hm⟩ => ⟨r, hr, (extractHrv_fail_iff now daysBack r).1 hm⟩,
      fun ⟨r, hr, hm⟩ => ⟨r, hr, (extractHrv_fail_iff now daysBack r).2 hm⟩⟩

/-- C3 (counterexample): with one corrupt record followed by one good record
in the window, the extraction is an error — the corrupt record is not
skipped while the rest of the run continues, although the good record alone
extracts fine. -/
theorem c3_counterexample :
    processHeartRateData 200 30 [badHrRec, goodHrRec] =
      .error "ValueError: could not convert string to float: abc" ∧
    processHeartRateData 200 30 [goodHrRec] =
      .ok [HeartRateRec.mk 150 (dateOf 150) (roundTo 1 ((1 : ℚ) * ((72 : ℕ) : ℚ)))
        (some "count/min") "Watch"] :=
  ⟨rfl, rfl⟩

theorem rhe_eq_low (q : ℚ) (f : ℤ) (h1 : (f : ℚ) ≤ q) (h2 : q < (f : ℚ) + 1/2) :
    rhe q = f := by
  have hf : ⌊q⌋ = f := Int.floor_eq_iff.2 ⟨h1, by linarith⟩
  simp only [rhe, hf]
  rw [if_pos (by linarith)]

theorem rhe_eq_high (q : ℚ) (f : ℤ) (h1 : (f : ℚ) + 1/2 < q) (h2 : q < (f : ℚ) + 1) :
    rhe q = f + 1 := by
  have hf : ⌊q⌋ = f := Int.floor_eq_iff.2 ⟨by linarith, h2⟩
  simp only [rhe, hf]
  rw [if_neg (by linarith), if_pos (by linarith)]

theorem rhe_tie (q : ℚ) (f : ℤ) (h : q = (f : ℚ) + 1/2) :
    rhe q = if f % 2 = 0 then f else f + 1 := by
  have hf : ⌊q⌋ = f := Int.floor_eq_iff.2 ⟨by rw [h]; linarith, by rw [h]; norm_num⟩
  simp only [rhe, hf]
  rw [if_neg (by rw [h]; norm_num), if_neg (by rw [h]; norm_num)]

theorem roundTo_eq_low (n : ℕ) (q : ℚ) (f : ℤ) (h1 : (f : ℚ) ≤ q * 10 ^ n)
    (h2 : q * 10 ^ n < (f : ℚ) + 1/2) : roundTo n q = (f : ℚ) / 10 ^ n := by
  rw [roundTo, rhe_eq_low (q * 10 ^ n) f h1 h2]

theorem roundTo_eq_high (n : ℕ) (q : ℚ) (f : ℤ) (h1 : (f : ℚ) + 1/2 < q * 10 ^ n)
    (h2 : q * 10 ^ n < (f : ℚ) + 1) : roundTo n q = ((f : ℚ) + 1) / 10 ^ n := by
  rw [roundTo, rhe_eq_high (q * 10 ^ n) f h1 h2]
  push_cast
  ring

theorem roundTo_tie_even (n : ℕ) (q : ℚ) (f : ℤ) (hf : f % 2 = 0)
    (h : q * 10 ^ n = (f : ℚ) + 1/2) : roundTo n q = (f : ℚ) / 10 ^ n := by
  rw [roundTo, rhe_tie (q * 10 ^ n) f h, if_pos hf]

/-- C4: in every nightly summary, total_sleep_hours is the rounding (the
2-decimal rounding the summary constructor applies to every hour field) of
the Asleep + Core + Deep + REM stage-minute totals of that date's sessions
divided by 60, with the totals reconstructed from the same session list. -/
theorem c4_total_sleep_hours (ss : List SleepSession) (r : DailySleep)
    (h : r ∈ aggregateDailySleep ss) :
    r.total_sleep_hours = roundTo 2 ((stageSum ss r.date .asleep + stageSum ss r.date .core +
      stageSum ss r.date .deep + stageSum ss r.date .rem) / 60) :=
  (aggregateDailySleep_row ss r h).2.2.1

theorem c4_total_sleep_hours_witness :
    c4Row.total_sleep_hours = roundTo 2 ((stageSum [sessCore] c4Row.date .asleep +
      stageSum [sessCore] c4Row.date .core + stageSum [sessCore] c4Row.date .deep +
      stageSum [sessCore] c4Row.date .rem) / 60) :=
  c4_total_sleep_hours [sessCore] c4Row (List.mem_singleton.2 rfl)

/-- C5: in every daily cardiac summary, the resting_hr (resp. hrv) field is
the value of the last RestingHeartRate (resp. HRV) measurement of that date
in input order, absent when the date has none. -/
theorem c5_last_write_wins (heartRates : List HeartRateRec)
    (restingHrs : List RestingRec) (hrvs : List HrvRec) (r : DailyHeart)
    (h : r ∈ aggregateDailyHeartData heartRates restingHrs hrvs) :
    r.resting_hr = ((restingHrs.filter (fun x => x.date = r.date)).getLast?).map
      (fun x => x.resting_heart_rate) ∧
    r.hrv = ((hrvs.filter (fun x => x.date = r.date)).getLast?).map (fun x => x.hrv_sdnn) := by
  rcases aggregateDailyHeartData_row heartRates restingHrs hrvs r h with ⟨h1, h2⟩
  rw [h1, h2, lastMatch_eq_getLast, lastMatch_eq_getLast]
  exact ⟨rfl, rfl⟩

theorem c5_last_write_wins_witness : c5Row.resting_hr = some 58 ∧ c5Row.hrv = none := by
  have h := c5_last_write_wins [] [rhr55, rhr58] [] c5Row (List.mem_singleton.2 rfl)
  rcases h with ⟨h1, h2⟩
  constructor
  · rw [h1]; rfl
  · rw [h2]; rfl

theorem extractSleep_keep_elim (now daysBack : Int) (r : RawRecord) (sess : SleepSession)
    (h : extractSleep now daysBack r = .keep sess) :
    ∃ s e v, r.startDate = some s ∧ r.endDate = some e ∧ r.value = some v ∧
      sess.date = dateOf s ∧ sess.start_time = s ∧ sess.end_time = e ∧
      sess.duration_minutes = roundTo 2 (((e - s : ℤ) : ℚ) / 60) ∧
      sess.type = stripStageLabel v := by
  by_cases ht : r.type = "HKCategoryTypeIdentifierSleepAnalysis"
  · cases hs : r.startDate with
    | none => simp [extractSleep, ht, hs] at h
    | some s =>
      cases he : r.endDate with
      | none => simp [extractSleep, ht, hs, he] at h
      | some e =>
        by_cases hlt : s < now - daysBack * 86400
        · simp [extractSleep, ht, hs, he, hlt] at h
        · cases hv : r.value with
          | none => simp [extractSleep, ht, hs, he, hlt, hv] at h
          | some v =>
            simp only [extractSleep] at h
            rw [if_pos ht] at h
            simp only [hs, he] at h
            rw [if_neg hlt] at h
            simp only [hv] at h
            injection h with h2
            subst h2
            exact ⟨s, e, v, rfl, rfl, rfl, rfl, rfl, rfl, rfl, rfl⟩
  · simp [extractSleep, ht] at h

theorem processSleepData_mem (now daysBack : Int) (records : List RawRecord)
    (out : List SleepSession) (sess : SleepSession)
    (h : processSleepData now daysBack records = .ok out) (hm : sess ∈ out) :
    ∃ r ∈ records, extractSleep now daysBack r = .keep sess := by
  have hout := runExtract_ok_elim _ records out h
  subst hout
  rcases List.mem_filterMap.1 hm with ⟨r, hr, hk⟩
  refine ⟨r, hr, ?_⟩
  simp only [keepOf] at hk
  cases hfr : extractSleep now daysBack r <;> rw [hfr] at hk
  · cases hk
  · cases hk
  · simp only [Option.some.injEq] at hk
    rw [hk]

/-- C6 (amended): per night group, bedtime is the time-of-day of the minimum
session start and wake_time the time-of-day of the maximum session end, and
the extractor attributes every session to the calendar date of its start —
therefore the scenario sessions 23:00→00:30 Core and 00:30→06:30 Deep land
in two different night groups (day 0 and day 1) and aggregate to the two
rows rowA and rowB, not to one combined 7.5-hour night. -/
theorem c6_bedtime_wake_attribution :
    (∀ (now daysBack : Int) (records : List RawRecord) (out : List SleepSession)
      (sess : SleepSession), processSleepData now daysBack records = .ok out →
      sess ∈ out → sess.date = dateOf sess.start_time) ∧
    (∀ (ss : List SleepSession) (r : DailySleep), r ∈ aggregateDailySleep ss →
      (∃ m, m ∈ (sessionsOn ss r.date).map (fun s => s.start_time) ∧
        (∀ t ∈ (sessionsOn ss r.date).map (fun s => s.start_time), m ≤ t) ∧
        r.bedtime = some (formatHM m)) ∧
      (∃ w, w ∈ (sessionsOn ss r.date).map (fun s => s.end_time) ∧
        (∀ t ∈ (sessionsOn ss r.date).map (fun s => s.end_time), t ≤ w) ∧
        r.wake_time = some (formatHM w))) ∧
    aggregateDailySleep [sessCore, sessDeep] = [rowA, rowB] := by
  refine ⟨?_, ?_, ?_⟩
  · intro now daysBack records out sess hok hmem
    rcases processSleepData_mem now daysBack records out sess hok hmem with ⟨r, _, hk⟩
    rcases extractSleep_keep_elim now daysBack r sess hk with
      ⟨s, e, v, _, _, _, hdate, hstart, _⟩
    rw [hdate, hstart]
  · intro ss r hr
    rcases aggregateDailySleep_row ss r hr with
      ⟨⟨s0, hs0, hs0d⟩, _, _, _, _, _, _, hbed, hwake⟩
    have hs0mem : s0 ∈ sessionsOn ss r.date := by
      simp only [sessionsOn, List.mem_filter]
      exact ⟨hs0, by simpa using hs0d⟩
    constructor
    · have hne : (sessionsOn ss r.date).map (fun s => s.start_time) ≠ [] := by
        intro hc
        exact absurd (List.mem_map_of_mem (fun s => s.start_time) hs0mem) (by simp [hc])
      have hsome := ominFold_isSome ((sessionsOn ss r.date).map (fun s => s.start_time))
        none (Or.inr hne)
      rcases Option.isSome_iff_exists.1 hsome with ⟨m, hm⟩
      rcases ominFold_spec _ none m hm with ⟨hle, hmem, _⟩
      refine ⟨m, ?_, hle, ?_⟩
      · rcases hmem with h | h
        · exact h
        · cases h
      · rw [hbed, hm]
        rfl
    · have hne : (sessionsOn ss r.date).map (fun s => s.end_time) ≠ [] := by
        intro hc
        exact absurd (List.mem_map_of_mem (fun s => s.end_time) hs0mem) (by simp [hc])
      have hsome := omaxFold_isSome ((sessionsOn ss r.date).map (fun s => s.end_time))
        none (Or.inr hne)
      rcases Option.isSome_iff_exists.1 hsome with ⟨w, hw⟩
      rcases omaxFold_spec _ none w hw with ⟨hle, hmem, _⟩
      refine ⟨w, ?_, hle, ?_⟩
      · rcases hmem with h | h
        · exact h
        · cases h
      · rw [hwake, hw]
        rfl
  · have e1 : aggregateDailySleep [sessCore, sessDeep] =
        [finalizeSleep 0 (sleepAccAdd {} sessCore), finalizeSleep 1 (sleepAccAdd {} sessDeep)] :=
      rfl
    have hacc1 : sleepAccAdd {} sessCore =
        SleepAcc.mk 0 0 0 (0 + 90) 0 0 (some 82800) (some 88200) := rfl
    have hacc2 : sleepAccAdd {} sessDeep =
        SleepAcc.mk 0 0 0 0 (0 + 360) 0 (some 88200) (some 109800) := rfl
    rw [e1, hacc1, hacc2]
    have hA : finalizeSleep 0 (SleepAcc.mk 0 0 0 (0 + 90) 0 0 (some 82800) (some 88200)) =
        rowA := by
      simp only [finalizeSleep, rowA, DailySleep.mk.injEq]
      refine ⟨by decide, by decide, by decide, ?_, ?_, ?_, ?_, ?_, ?_⟩ <;> norm_num [roundTo, rhe]
    have hB : finalizeSleep 1 (SleepAcc.mk 0 0 0 0 (0 + 360) 0 (some 88200) (some 109800)) =
        rowB := by
      simp only [finalizeSleep, rowB, DailySleep.mk.injEq]
      refine ⟨by decide, by decide, by decide, ?_, ?_, ?_, ?_, ?_, ?_⟩ <;> norm_num [roundTo, rhe]
    rw [hA, hB]

/-- C6 (counterexample): on the spec's own scenario sessions the aggregator
produces two nightly rows, and no row has both the claimed bedtime 23:00 and
the claimed wake_time 06:30 — the claimed single 7.5-hour aggregate does not
exist. -/
theorem c6_counterexample :
    (aggregateDailySleep [sessCore, sessDeep]).length = 2 ∧
    ((aggregateDailySleep [sessCore, sessDeep]).filter
      (fun r => decide (r.bedtime = some ((23 : Int), (0 : Int))) &&
        decide (r.wake_time = some ((6 : Int), (30 : Int))))) = [] :=
  ⟨rfl, rfl⟩

theorem c6_bedtime_wake_attribution_witness :
    (aggregateDailySleep [sessCore, sessDeep] = [rowA, rowB]) ∧
    rowA.bedtime = some (formatHM sessCore.start_time) ∧
    rowB.wake_time = some (formatHM sessDeep.end_time) ∧
    c6ExtractedSess.date = dateOf c6ExtractedSess.start_time := by
  have h := c6_bedtime_wake_attribution
  refine ⟨h.2.2, ?_, ?_, ?_⟩
  · have hmem : rowA ∈ aggregateDailySleep [sessCore, sessDeep] := by
      rw [h.2.2]; exact List.mem_cons_self _ _
    rcases (h.2.1 [sessCore, sessDeep] rowA hmem).1 with ⟨m, hm, _, hbed⟩
    have hm' : m = 82800 := by
      simp [sessionsOn, sessCore, sessDeep, rowA] at hm
      exact hm
    rw [hm'] at hbed
    exact hbed
  · have hmem : rowB ∈ aggregateDailySleep [sessCore, sessDeep] := by
      rw [h.2.2]; exact List.mem_cons_of_mem _ (List.mem_cons_self _ _)
    rcases (h.2.1 [sessCore, sessDeep] rowB hmem).2 with ⟨w, hw, _, hwake⟩
    have hw' : w = 109800 := by
      simp [sessionsOn, sessCore, sessDeep, rowB] at hw
      exact hw
    rw [hw'] at hwake
    exact hwake
  · have hok : processSleepData 200000 30 [sleepRecCore] = .ok [c6ExtractedSess] := rfl
    exact h.1 200000 30 [sleepRecCore] [c6ExtractedSess] c6ExtractedSess hok
      (List.mem_singleton.2 rfl)

/-- C10: bedtime and wake_time of a nightly summary are the min/max over the
starts/ends of all sessions of that date — the per-date session list is
filtered on the date alone, with no condition on the stage label, so a
session with an unrecognized stage still competes for both bounds. -/
theorem c10_unknown_competes_for_bounds (ss : List SleepSession) (r : DailySleep)
    (h : r ∈ aggregateDailySleep ss) :
    r.bedtime = (ominFold none ((sessionsOn ss r.date).map (fun s => s.start_time))).map
      formatHM ∧
    r.wake_time = (omaxFold none ((sessionsOn ss r.date).map (fun s => s.end_time))).map
      formatHM ∧
    ∀ s ∈ ss, s.date = r.date →
      (∃ m, r.bedtime = some (formatHM m) ∧ m ≤ s.start_time) ∧
      (∃ w, r.wake_time = some (formatHM w) ∧ s.end_time ≤ w) := by
  rcases aggregateDailySleep_row ss r h with
    ⟨_, _, _, _, _, _, _, hbed, hwake⟩
  refine ⟨hbed, hwake, ?_⟩
  intro s hs hsd
  have hsmem : s ∈ sessionsOn ss r.date := by
    simp only [sessionsOn, List.mem_filter]
    exact ⟨hs, by simpa using hsd⟩
  constructor
  · have hne : (sessionsOn ss r.date).map (fun s => s.start_time) ≠ [] := by
      intro hc
      exact absurd (List.mem_map_of_mem (fun s => s.start_time) hsmem) (by simp [hc])
    rcases Option.isSome_iff_exists.1
      (ominFold_isSome ((sessionsOn ss r.date).map (fun s => s.start_time)) none
        (Or.inr hne)) with ⟨m, hm⟩
    rcases ominFold_spec _ none m hm with ⟨hle, _, _⟩
    exact ⟨m, by rw [hbed, hm]; rfl,
      hle s.start_time (List.mem_map_of_mem (fun s => s.start_time) hsmem)⟩
  · have hne : (sessionsOn ss r.date).map (fun s => s.end_time) ≠ [] := by
      intro hc
      exact absurd (List.mem_map_of_mem (fun s => s.end_time) hsmem) (by simp [hc])
    rcases Option.isSome_iff_exists.1
      (omaxFold_isSome ((sessionsOn ss r.date).map (fun s => s.end_time)) none
        (Or.inr hne)) with ⟨w, hw⟩
    rcases omaxFold_spec _ none w hw with ⟨hle, _, _⟩
    exact ⟨w, by rw [hwake, hw]; rfl,
      hle s.end_time (List.mem_map_of_mem (fun s => s.end_time) hsmem)⟩

theorem c10_unknown_competes_for_bounds_witness :
    c10Row.bedtime = some (22, 0) ∧ c10Row.wake_time = some (0, 30) := by
  have h := c10_unknown_competes_for_bounds [sUnknownStage, sessCore] c10Row
    (List.mem_singleton.2 rfl)
  exact ⟨by rw [h.1]; rfl, by rw [h.2.1]; rfl⟩

/-- C7: a sleep record whose stripped stage label is unrecognized (classified
Unknown by the normalization of the aggregator's if/elif chain) is still
turned into a session and kept in the extractor output, and the aggregation
step for such a session adds its duration to none of the six stage-minute
buckets. -/
theorem c7_unknown_stage_retained :
    (∀ (now daysBack : Int) (records : List RawRecord) (out : List SleepSession)
      (r : RawRecord) (s e : Timestamp) (v : String),
      processSleepData now daysBack records = .ok out → r ∈ records →
      r.type = "HKCategoryTypeIdentifierSleepAnalysis" → r.startDate = some s →
      r.endDate = some e → r.value = some v → ¬ s < now - daysBack * 86400 →
      classifyStage (stripStageLabel v) = .unknown →
      ∃ sess ∈ out, sess.type = stripStageLabel v ∧
        classifyStage sess.type = .unknown ∧ sess.start_time = s) ∧
    (∀ (a : SleepAcc) (s : SleepSession), classifyStage s.type = .unknown →
      (sleepAccAdd a s).total_in_bed_minutes = a.total_in_bed_minutes ∧
      (sleepAccAdd a s).total_asleep_minutes = a.total_asleep_minutes ∧
      (sleepAccAdd a s).total_awake_minutes = a.total_awake_minutes ∧
      (sleepAccAdd a s).core_sleep_minutes = a.core_sleep_minutes ∧
      (sleepAccAdd a s).deep_sleep_minutes = a.deep_sleep_minutes ∧
      (sleepAccAdd a s).rem_sleep_minutes = a.rem_sleep_minutes) := by
  constructor
  · intro now daysBack records out r s e v hok hr ht hs he hv hlt hcl
    have hout := runExtract_ok_elim _ records out hok
    have hkeep : extractSleep now daysBack r = .keep (SleepSession.mk (dateOf s) s e
        (roundTo 2 (((e - s : ℤ) : ℚ) / 60)) (roundTo 2 ((((e - s : ℤ) : ℚ) / 60) / 60))
        (stripStageLabel v) (r.sourceName.getD "Unknown")) := by
      simp [extractSleep, ht, hs, he, hv, hlt]
    refine ⟨SleepSession.mk (dateOf s) s e
      (roundTo 2 (((e - s : ℤ) : ℚ) / 60)) (roundTo 2 ((((e - s : ℤ) : ℚ) / 60) / 60))
      (stripStageLabel v) (r.sourceName.getD "Unknown"), ?_, rfl, hcl, rfl⟩
    rw [hout]
    exact List.mem_filterMap.2 ⟨r, hr, by simp [keepOf, hkeep]⟩
  · intro a s h
    refine ⟨?_, ?_, ?_, ?_, ?_, ?_⟩ <;>
      simp [sleepAccAdd_inBed, sleepAccAdd_asleep, sleepAccAdd_awake, sleepAccAdd_core,
        sleepAccAdd_deep, sleepAccAdd_rem, h]

theorem c7_unknown_stage_retained_witness :
    c7Sess.type = stripStageLabel "HKCategoryValueSleepAnalysisSomethingNew" ∧
    classifyStage c7Sess.type = .unknown ∧
    (sleepAccAdd ({} : SleepAcc) c7Sess).total_awake_minutes =
      ({} : SleepAcc).total_awake_minutes ∧
    (sleepAccAdd ({} : SleepAcc) c7Sess).core_sleep_minutes =
      ({} : SleepAcc).core_sleep_minutes := by
  have h := c7_unknown_stage_retained
  have hcl : classifyStage (stripStageLabel "HKCategoryValueSleepAnalysisSomethingNew") =
      .unknown := by decide
  have hok : processSleepData 86400 30 [c7Rec] = .ok [c7Sess] := rfl
  rcases h.1 86400 30 [c7Rec] [c7Sess] c7Rec 0 60
      "HKCategoryValueSleepAnalysisSomethingNew" hok (List.mem_singleton.2 rfl) rfl rfl rfl
      rfl (by norm_num) hcl with ⟨sess, hsessmem, hty, hclu, _⟩
  have hsess : sess = c7Sess := List.mem_singleton.1 hsessmem
  rw [hsess] at hty hclu
  have h2 := h.2 ({} : SleepAcc) c7Sess hclu
  exact ⟨hty, hclu, h2.2.2.1, h2.2.2.2.1⟩

/-- C8 (amended): rounding is applied twice on the sleep path, not once —
the extractor already rounds each session's duration to 2 decimal places,
and the summary constructor then rounds each field once more (hour fields to
2 decimals, minute fields to 1) over the already-rounded durations; the
merge step copies summary fields through unchanged, so no further rounding
happens downstream. -/
theorem c8_rounding_twice :
    (∀ (now daysBack : Int) (r : RawRecord) (sess : SleepSession),
      extractSleep now daysBack r = .keep sess →
      sess.duration_minutes = roundTo 2 (((sess.end_time - sess.start_time : ℤ) : ℚ) / 60)) ∧
    (∀ (ss : List SleepSession) (r : DailySleep), r ∈ aggregateDailySleep ss →
      r.awake_minutes = roundTo 1 (stageSum ss r.date .awake) ∧
      r.time_in_bed_hours = roundTo 2 (stageSum ss r.date .inBed / 60) ∧
      r.core_sleep_hours = roundTo 2 (stageSum ss r.date .core / 60) ∧
      r.deep_sleep_hours = roundTo 2 (stageSum ss r.date .deep / 60) ∧
      r.rem_sleep_hours = roundTo 2 (stageSum ss r.date .rem / 60)) ∧
    (∀ (sleepData : List DailySleep) (heartData : List DailyHeart)
      (row : CombinedRow) (ds : DailySleep),
      row ∈ generateSpreadsheet sleepData heartData → row.sleep = some ds →
      ds ∈ sleepData) := by
  refine ⟨?_, ?_, ?_⟩
  · intro now daysBack r sess hk
    rcases extractSleep_keep_elim now daysBack r sess hk with
      ⟨s, e, v, _, _, _, _, hstart, hend, hdur, _⟩
    rw [hstart, hend, hdur]
  · intro ss r h
    rcases aggregateDailySleep_row ss r h with
      ⟨_, hinbed, _, hawake, hcore, hdeep, hrem, _, _⟩
    exact ⟨hawake, hinbed, hcore, hdeep, hrem⟩
  · intro sleepData heartData row ds hrow hds
    rcases mem_generateSpreadsheet_elim sleepData heartData row hrow with ⟨hs, _⟩
    rw [hs] at hds
    exact (lastMatch_mem _ _ _ hds).1

/-- C8 (counterexample): fifteen one-second Awake sessions on one date. The
extractor stores each duration as 0.02 minutes (the 2-decimal rounding of
1/60, which is not 1/60), and the summary's awake_minutes becomes
round1(15 × 0.02) = 0.3, while a single rounding of the exact aggregate
would give round1(15/60) = round1(0.25) = 0.2 under the same half-to-even
rounding. -/
theorem c8_counterexample :
    processSleepData 86400 30 [oneSecAwakeRec] = .ok [oneSecSession] ∧
    oneSecSession.duration_minutes = 1/50 ∧
    ((1 : ℚ)/50 ≠ 1/60) ∧
    (aggregateDailySleep (List.replicate 15 oneSecSession)).map (fun r => r.awake_minutes) =
      [3/10] ∧
    roundTo 1 (15 * ((1 : ℚ)/60)) = 1/5 ∧
    ((3 : ℚ)/10 ≠ 1/5) := by
  refine ⟨rfl, ?_, by norm_num, ?_, by norm_num [roundTo, rhe], by norm_num⟩
  · show roundTo 2 (((1 - 0 : ℤ) : ℚ) / 60) = 1/50
    norm_num [roundTo, rhe]
  · have e1 : aggregateDailySleep (List.replicate 15 oneSecSession) =
        [finalizeSleep 0 ((List.foldl addSession ⟨[], fun _ => {}⟩
          (List.replicate 15 oneSecSession)).tbl 0)] := rfl
    rw [e1]
    simp only [List.map_cons, List.map_nil]
    rw [foldl_addSession_tbl]
    simp only [finalizeSleep]
    rw [foldl_sleepAccAdd_awake]
    have hsess : sessionsOn (List.replicate 15 oneSecSession) 0 =
        List.replicate 15 oneSecSession := by
      rw [sessionsOn, List.filter_eq_self]
      intro a ha
      rw [List.eq_of_mem_replicate ha]
      decide
    rw [hsess]
    have hsum : stageSumL (List.replicate 15 oneSecSession) .awake =
        15 * oneSecSession.duration_minutes := by
      rw [stageSumL, List.filter_eq_self.2 ?_]
      · rw [List.map_replicate, List.sum_replicate, nsmul_eq_mul]
        norm_num
      · intro a ha
        rw [List.eq_of_mem_replicate ha]
        decide
    rw [hsum]
    have hd : oneSecSession.duration_minutes = 1/50 := by
      show roundTo 2 (((1 - 0 : ℤ) : ℚ) / 60) = 1/50
      norm_num [roundTo, rhe]
    rw [hd]
    simp only [List.cons.injEq, and_true]
    norm_num [roundTo, rhe]

theorem c8_rounding_twice_witness :
    oneSecSession.duration_minutes =
      roundTo 2 (((oneSecSession.end_time - oneSecSession.start_time : ℤ) : ℚ) / 60) ∧
    c4Row.awake_minutes = roundTo 1 (stageSum [sessCore] c4Row.date .awake) := by
  constructor
  · have hk : extractSleep 86400 30 oneSecAwakeRec = .keep oneSecSession := rfl
    exact c8_rounding_twice.1 86400 30 oneSecAwakeRec oneSecSession hk
  · exact (c8_rounding_twice.2.1 [sessCore] c4Row (List.mem_singleton.2 rfl)).1

theorem c9_pipeline_deterministic_witness :
    runPipeline 86400 30 [sleepRecCore, goodHrRec] =
      runPipeline 86400 30 [sleepRecCore, goodHrRec] :=
  c9_pipeline_deterministic [sleepRecCore, goodHrRec] [sleepRecCore, goodHrRec]
    86400 86400 30 30 rfl rfl rfl

theorem c1_merge_outer_join_witness :
    ((generateSpreadsheet [rowA] [heartDay3]).map (fun r => r.date)).Nodup ∧
    List.Sorted (fun x y => x ≤ y)
      ((generateSpreadsheet [rowA] [heartDay3]).map (fun r => r.date)) :=
  ⟨(c1_merge_outer_join [rowA] [heartDay3]).2.1,
    (c1_merge_outer_join [rowA] [heartDay3]).2.2.1⟩

theorem c2_window_filter_witness :
    (extractHeartRate 200 30 goodHrRec ≠ ExtractStep.skip) ∧
    runPipeline 200 30 (List.filter (fun r => !outOfWindow 200 30 r) [goodHrRec, badHrRec]) =
      runPipeline 200 30 [goodHrRec, badHrRec] := by
  have h := c2_window_filter 200 30
  constructor
  · rcases (h.2.1 goodHrRec 150 ((1 : ℚ) * ((72 : ℕ) : ℚ)) rfl rfl rfl).2 (by norm_num)
      with ⟨m, hm⟩
    intro hc
    rw [hc] at hm
    cases hm
  · exact h.2.2 [goodHrRec, badHrRec]
